import Mathlib

/-!
Verification of the Gorse/Flask recommendation pipeline (`flask_app/app.py`).

The Python source is shallowly embedded below.  Conventions used throughout:

* MongoDB collections are lists of well-formed documents; `find` is `List.filter`
  in natural (collection) order, `find_one` is `List.find?`, Mongo sorts are
  modelled by a stable `mergeSort` on the sort key (the claims never depend on
  the relative order of equal keys beyond stability).
* Python floats are modelled by `ℚ` (exact arithmetic); `round(x, 6)` is
  modelled by rounding `x·10^6` to the nearest integer.
* Python dicts are insertion-ordered association lists (`alistSet` updates an
  existing key in place and appends a fresh key at the end, exactly like a
  dict assignment; `dict.values()` / `dict.items()` is the list itself).
* Python sets that are only ever used for membership tests are modelled as
  lists queried with `∈` / `contains`.
* `datetime` values are `TS.time t` with `t` the absolute time in hours; a
  string that `datetime.fromisoformat` rejects is `TS.badString s`.  A field
  read with `.get(k)` that may be absent is an `Option`.
* Redis is an association list from key to (value, TTL-set-at-write); the
  `REDIS_AVAILABLE` flag is passed explicitly.  The external recommender
  response and the `random.shuffle` outcome are supplied by an `Env` record.
-/

namespace App

/-- Constant `PRELOAD_BUFFER = 100` from app.py. -/
def PRELOAD_BUFFER : Nat := 100

/-- Constant `CACHE_TTL = 600` from app.py. -/
def CACHE_TTL : Nat := 600

/-- Constant `DEFAULT_PAGE_SIZE = 10` from app.py. -/
def DEFAULT_PAGE_SIZE : Int := 10

/-- Constant `MAX_PAGE_SIZE = 20` from app.py. -/
def MAX_PAGE_SIZE : Int := 20

/-- Constant `MIN_PAGE_SIZE = 5` from app.py. -/
def MIN_PAGE_SIZE : Int := 5

/-- Hexadecimal digit test (for `bson.ObjectId.is_valid`). -/
def isHexChar (c : Char) : Bool :=
  c.isDigit || ('a' ≤ c && c ≤ 'f') || ('A' ≤ c && c ≤ 'F')

/-- Model of `bson.ObjectId.is_valid` on a string: exactly 24 hexadecimal characters. -/
def isValidOid (s : String) : Bool :=
  s.length == 24 && s.toList.all isHexChar

/-- Python string truthiness for an optional string (`if s:`). -/
def pyTruthyStr (s : Option String) : Bool :=
  match s with
  | some s => s != ""
  | none => false

/-- Python `int()` applied to a nonnegative-or-negative rational: truncation
toward zero. -/
def pyInt (q : ℚ) : Int :=
  if 0 ≤ q then ⌊q⌋ else -⌊-q⌋

/-- Python `round(x, 6)`: round to 6 decimal digits.  (Ties are rounded
half-up here; under the exact-rational model of float arithmetic the claims
never hinge on the tie rule.) -/
def round6 (q : ℚ) : ℚ :=
  (round (q * 1000000) : ℚ) / 1000000

/-- Lookup in an insertion-ordered association list (Python `d.get(k)`). -/
def alistGet {α : Type} (m : List (String × α)) (k : String) : Option α :=
  (m.find? (fun p => p.1 == k)).map (fun p => p.2)

/-- Assignment in an insertion-ordered association list (Python `d[k] = v`):
an existing key is updated in place, a new key is appended at the end. -/
def alistSet {α : Type} (m : List (String × α)) (k : String) (v : α) :
    List (String × α) :=
  if m.any (fun p => p.1 == k) then
    m.map (fun p => if p.1 == k then (k, v) else p)
  else m ++ [(k, v)]

/-- A stored creation timestamp: either a datetime (or an ISO string that
parses to one), with its value in hours, or a string the parser rejects. -/
inductive TS where
  | time (t : ℚ)
  | badString (s : String)
deriving DecidableEq, Repr

/-- A `feeds` collection document (fields read by app.py). -/
structure Feed where
  oid : String
  userId : String
  status : String
  hashtags : List String := []
  createdAt : Option TS := none
  decayedPopularityScore : Option ℚ := none
  text : Option String := none
  title : Option String := none
  likeCount : Option Nat := none
  commentCount : Option Nat := none
deriving DecidableEq, Repr

/-- A `likes` document: `feedId` is the liked item, `targetId` an optional
alternative key probed by the recommend route. -/
structure Like where
  userId : String
  feedId : String
  targetId : Option String := none
deriving DecidableEq, Repr

/-- A `comments` document. -/
structure Comment where
  userId : String
  feedId : String
deriving DecidableEq, Repr

/-- A `saved_feeds` document. -/
structure SavedFeed where
  userId : String
  feedId : String
deriving DecidableEq, Repr

/-- A `reposts` document. -/
structure Repost where
  userId : String
  originalFeedId : String
deriving DecidableEq, Repr

/-- A `users_daily_activity` (watch history) document. -/
structure WatchRow where
  user_id : String
  item_id : String
  watch_time : ℚ := 0
deriving DecidableEq, Repr

/-- A `follows` document. -/
structure Follow where
  followerId : String
  followingId : String
  status : String
deriving DecidableEq, Repr

/-- A `userinterests` document. -/
structure InterestRow where
  userId : String
  interests : List String := []
deriving DecidableEq, Repr

/-- An `explore_feeds` document. -/
structure ExploreFeed where
  feedId : String
  status : String
  popularityScore : Option ℚ := none
deriving DecidableEq, Repr

/-- A `related_items` document. -/
structure RelatedItem where
  user_id : String
  related_item_id : String
  score : ℚ := 0
deriving DecidableEq, Repr

/-- The MongoDB state visible to the pipeline. -/
structure DB where
  feeds : List Feed := []
  likes : List Like := []
  comments : List Comment := []
  saved_feeds : List SavedFeed := []
  reposts : List Repost := []
  watch : List WatchRow := []
  follows : List Follow := []
  interests : List InterestRow := []
  explore_feeds : List ExploreFeed := []
  related_items : List RelatedItem := []
deriving Repr

/-- One entry of the external recommender's JSON response when it is a dict:
each key the adapter probes, as an optional field. -/
structure GDict where
  Id : Option String := none
  ItemId : Option String := none
  item_id : Option String := none
  id : Option String := none
  Score : Option ℚ := none
  score : Option ℚ := none
deriving DecidableEq, Repr

/-- One entry of the external recommender's response: a dict, a bare string,
or a JSON null. -/
inductive GEntry where
  | dict (d : GDict)
  | rawStr (s : String)
  | rawNull
deriving DecidableEq, Repr

/-- A normalized external-recommender record (`{"item_id": ..., "cf_score": ...}`);
`item_id` is `none` when the Python value is `None`. -/
structure GorseItem where
  item_id : Option String
  cf_score : ℚ
deriving DecidableEq, Repr

/-- A candidate record as produced by the source adapters.  Absent dict keys
are `none`. -/
structure Candidate where
  item_id : String
  cf_score : Option ℚ := none
  content_score : Option ℚ := none
  social_score : Option ℚ := none
  popularity_score : Option ℚ := none
  category : Option String := none
  feed_data : Option Feed := none
deriving DecidableEq, Repr

/-- A scored recommendation (output of `compute_hybrid`; the recommend route
later adds the `is_popular` key to the same dict, modelled as a field that is
`false` until that point). -/
structure Scored where
  item_id : String
  score : ℚ
  category : String
  popularity : ℚ
  feed_data : Option Feed
  is_popular : Bool := false
deriving DecidableEq, Repr

/-- The `metadata` sub-dict attached to a served recommendation. -/
structure Meta where
  text : String
  title : Option String
  likes : Nat
  comments : Nat
  created_at : Option TS
deriving DecidableEq, Repr

/-- One fully annotated recommendation as stored in the cache and served. -/
structure FullRec where
  item_id : String
  score : ℚ
  category : String
  friend_liked_by : List String
  popularity : ℚ
  recommendation_type : String
  metadata : Option Meta := none
deriving DecidableEq, Repr

/-- The JSON body of a `/recommend/<user_id>` success response (the `stats`
diagnostic block is not modelled). -/
structure Response where
  user : String
  page : Nat
  limit : Nat
  session_id : Option String
  total : Nat
  has_more : Bool
  results_count : Nat
  recommendations : List FullRec
  cache : String
deriving DecidableEq, Repr

/-- The Redis keyspace: key to (cached list, TTL fixed at write time). -/
def CacheStore : Type := List (String × (List FullRec × Nat))

instance : DecidableEq CacheStore := by
  unfold CacheStore; infer_instance

/-- Request parameters of `recommend` after `int()` / `float()` parsing but
before clamping (clamping happens inside `recommendStep`, as in the source). -/
structure Req where
  page : Int := 1
  limit : Int := 10
  session_id : Option String := none
  refresh : Bool := false
  personalization : ℚ := 7/10
deriving Repr

/-- The per-request environment: current time, external-recommender response,
the outcome of `random.shuffle`, and the locally generated md5 session token. -/
structure Env where
  now : ℚ
  gorseOk : Bool := false
  gorseResp : Option (List GEntry) := none
  shuffle : List Scored → List Scored := id
  freshToken : String := "tok"

/-- Function `get_cache_key(user_id, session_id)` from app.py. -/
def get_cache_key (user_id : String) (session_id : Option String) : String :=
  match session_id with
  | some s => if s != "" then "rec_session:" ++ user_id ++ ":" ++ s
              else "rec_latest:" ++ user_id
  | none => "rec_latest:" ++ user_id

/-- Function `cache_recommendations` from app.py: returns the session token and the
new store.  When Redis is unavailable it is a pure no-op that still returns
`session_id or <md5 token>`. -/
def cache_recommendations (avail : Bool) (store : CacheStore) (user_id : String)
    (recommendations : List FullRec) (session_id : Option String)
    (fresh : String) : Option String × CacheStore :=
  let tok : String :=
    match session_id with
    | some s => if s != "" then s else fresh
    | none => fresh
  if !avail then (some tok, store)
  else (some tok, alistSet store (get_cache_key user_id session_id)
          (recommendations, CACHE_TTL))

/-- Function `get_cached_recommendations` from app.py: `None` when Redis is
unavailable or the key is absent. -/
def get_cached_recommendations (avail : Bool) (store : CacheStore)
    (user_id : String) (session_id : Option String) : Option (List FullRec) :=
  if !avail then none
  else (alistGet store (get_cache_key user_id session_id)).map (fun p => p.1)

/-- First truthy value of an optional string (one step of a Python `or`
chain): empty strings and `None` are falsy. -/
def truthyS (o : Option String) : Option String :=
  match o with
  | some s => if s = "" then none else some s
  | none => none

/-- First truthy value of an optional number: `0` and `None` are falsy. -/
def truthyQ (o : Option ℚ) : Option ℚ :=
  match o with
  | some q => if q = 0 then none else some q
  | none => none

/-- The identifier chosen by `it.get("Id") or it.get("ItemId") or
it.get("item_id") or it.get("id")`: the first truthy key, else the value of
the last operand (`it.get("id")`, possibly `None` or `""`). -/
def gorseEntryId (d : GDict) : Option String :=
  match truthyS d.Id |>.or (truthyS d.ItemId) |>.or (truthyS d.item_id)
        |>.or (truthyS d.id) with
  | some s => some s
  | none => d.id

/-- The score chosen by `it.get("Score") or it.get("score") or 0`. -/
def gorseEntryScore (d : GDict) : ℚ :=
  match truthyQ d.Score |>.or (truthyQ d.score) with
  | some q => q
  | none => 0

/-- Normalization of one response entry, exactly as the loop body of
`parse_gorse_items` builds it: a dict is probed for identifier and score
keys; a non-dict entry becomes `{"item_id": it, "cf_score": 0.0}`. -/
def normalizeGorseEntry (e : GEntry) : GorseItem :=
  match e with
  | .dict d => { item_id := gorseEntryId d, cf_score := gorseEntryScore d }
  | .rawStr s => { item_id := some s, cf_score := 0 }
  | .rawNull => { item_id := none, cf_score := 0 }

/-- Function `parse_gorse_items` from app.py.  `none` stands for a response whose body
is not a JSON list (or fails to parse): the function returns `[]`.  The loop
appends one normalized record per entry. -/
def parse_gorse_items (resp : Option (List GEntry)) : List GorseItem :=
  match resp with
  | none => []
  | some data =>
    data.foldl (fun normalized it => normalized ++ [normalizeGorseEntry it]) []

/-- Function `get_gorse_recommendations` from app.py: the parsed response on HTTP 200,
`[]` on any error. -/
def get_gorse_recommendations (env : Env) : List GorseItem :=
  if env.gorseOk then parse_gorse_items env.gorseResp else []

/-- Function `get_user_seen_items` from app.py: liked, commented, saved, reposted and
watched item ids (a Python set used only for membership, modelled as a
list).  Fails closed to `[]` on a malformed user id. -/
def get_user_seen_items (db : DB) (user_id : String) : List String :=
  if !isValidOid user_id then []
  else
    ((db.likes.filter (fun l => l.userId == user_id && l.feedId != "")).map
        (fun l => l.feedId))
    ++ ((db.comments.filter (fun c => c.userId == user_id && c.feedId != "")).map
        (fun c => c.feedId))
    ++ ((db.saved_feeds.filter (fun s => s.userId == user_id && s.feedId != "")).map
        (fun s => s.feedId))
    ++ ((db.reposts.filter (fun r => r.userId == user_id && r.originalFeedId != "")).map
        (fun r => r.originalFeedId))
    ++ ((db.watch.filter (fun w => w.user_id == user_id && w.item_id != "")).map
        (fun w => w.item_id))

/-- Function `get_user_created_items` from app.py. -/
def get_user_created_items (db : DB) (user_id : String) : List String :=
  if !isValidOid user_id then []
  else (db.feeds.filter (fun f => f.userId == user_id)).map (fun f => f.oid)

/-- Function `candidate_interest` from app.py: active feeds carrying any of the user's
interest tags, fixed `content_score = 0.7`. -/
def candidate_interest (db : DB) (user_id : String) (limit : Nat) :
    List Candidate :=
  if !isValidOid user_id then []
  else
    match db.interests.find? (fun ui => ui.userId == user_id) with
    | none => []
    | some ui =>
      if ui.interests = [] then []
      else
        ((db.feeds.filter (fun f =>
            f.hashtags.any (fun h => ui.interests.contains h) &&
            f.status == "active")).take limit).map (fun f =>
          { item_id := f.oid
            content_score := some (7/10)
            category := some "post"
            popularity_score := some (f.decayedPopularityScore.getD 0)
            feed_data := some f })

/-- Sort key used to model the store's `sort("createdAt", -1)`; only
well-formed timestamps matter (no claim depends on this order). -/
def feedTimeKey (f : Feed) : ℚ :=
  match f.createdAt with
  | some (.time t) => t
  | _ => 0

/-- Function `candidate_followed_users` from app.py: newest-first active feeds by
actively followed authors, fixed `content_score = 0.9`. -/
def candidate_followed_users (db : DB) (user_id : String) (limit : Nat) :
    List Candidate :=
  if !isValidOid user_id then []
  else
    let followed := (db.follows.filter (fun fl =>
        fl.followerId == user_id && fl.status == "active")).map
        (fun fl => fl.followingId)
    if followed = [] then []
    else
      (((db.feeds.filter (fun f =>
          followed.contains f.userId && f.status == "active")).mergeSort
          (fun a b => decide (feedTimeKey b ≤ feedTimeKey a))).take limit).map
        (fun f =>
          { item_id := f.oid
            content_score := some (9/10)
            category := some "post"
            popularity_score := some (f.decayedPopularityScore.getD 0)
            feed_data := some f })

/-- Function `candidate_social_boost` from app.py: per-item boost accumulated over the
followed users' likes (+0.5) and comments (+0.3), as an insertion-ordered
dict; the returned pairs model the `{"item_id": k, "social_score": v}`
dicts. -/
def candidate_social_boost (db : DB) (user_id : String) : List (String × ℚ) :=
  if !isValidOid user_id then []
  else
    let friends := (db.follows.filter (fun fl =>
        fl.followerId == user_id && fl.status == "active")).map
        (fun fl => fl.followingId)
    if friends = [] then []
    else
      let m := (db.likes.filter (fun l => friends.contains l.userId)).foldl
        (fun m l => alistSet m l.feedId ((alistGet m l.feedId).getD 0 + 1/2)) []
      (db.comments.filter (fun c => friends.contains c.userId)).foldl
        (fun m c => alistSet m c.feedId ((alistGet m c.feedId).getD 0 + 3/10)) m

/-- Function `candidate_trending` from app.py: active explore-pool entries by
descending popularity, fixed `content_score = 0.5`; entries with a falsy
`feedId` are dropped after the limit is applied. -/
def candidate_trending (db : DB) (limit : Nat) : List Candidate :=
  (((db.explore_feeds.filter (fun f => f.status == "active")).mergeSort
      (fun a b =>
        decide (b.popularityScore.getD 0 ≤ a.popularityScore.getD 0))).take
      limit).filterMap (fun f =>
    if f.feedId != "" then
      some { item_id := f.feedId
             content_score := some (1/2)
             category := some "post"
             popularity_score := some (f.popularityScore.getD 0) }
    else none)

/-- Function `compute_recency_score` from app.py, as a function of the current time
and the resolved `createdAt` value.  A missing or empty (falsy) timestamp
scores 0.2; an unparseable string is replaced by `datetime.utcnow()` itself,
so the age is 0 and the score is 1.0; otherwise a step function of the age
in hours. -/
def compute_recency_score (now : ℚ) (ts : Option TS) : ℚ :=
  match ts with
  | none => 1/5
  | some (.badString s) => if s = "" then 1/5 else 1
  | some (.time t) =>
    let age_hours := now - t
    if age_hours < 1 then 1
    else if age_hours < 24 then 4/5
    else if age_hours < 72 then 1/2
    else 1/5

/-- The item snapshot resolved by the scoring loop: the candidate's own
`feed_data` if present, else a lookup by id (an invalid ObjectId string or a
missed lookup yields the empty doc, modelled as `none`). -/
def resolveDoc (db : DB) (c : Candidate) : Option Feed :=
  match c.feed_data with
  | some f => some f
  | none =>
    if isValidOid c.item_id then db.feeds.find? (fun f => f.oid == c.item_id)
    else none

/-- The popularity used by the scoring loop:
`float(item_doc.get("decayedPopularityScore", 0) or 0)`, 0 when the item
could not be resolved. -/
def hybridPopularity (db : DB) (c : Candidate) : ℚ :=
  ((resolveDoc db c).bind (fun f => f.decayedPopularityScore)).getD 0

/-- The friend boost used by the scoring loop: `social_map.get(iid, 0)` where
`social_map` is the dict built from `candidate_social_boost`. -/
def hybridFriendBoost (db : DB) (user_id iid : String) : ℚ :=
  (alistGet (candidate_social_boost db user_id) iid).getD 0

/-- The watch multiplier used by the scoring loop: 1.2 when the stored watch
time for (user, item) is at least 5, else 1.0. -/
def hybridWatchBoost (db : DB) (user_id iid : String) : ℚ :=
  match db.watch.find? (fun w => w.user_id == user_id && w.item_id == iid) with
  | some w => if w.watch_time ≥ 5 then 6/5 else 1
  | none => 1

/-- The body of the `compute_hybrid` loop for one candidate. -/
def scoreOne (db : DB) (now : ℚ) (user_id : String) (c : Candidate) : Scored :=
  let cf := c.cf_score.getD 0
  let content := c.content_score.getD 0
  let recency :=
    compute_recency_score now ((resolveDoc db c).bind (fun f => f.createdAt))
  let popularity := hybridPopularity db c
  let friend_boost := hybridFriendBoost db user_id c.item_id
  let watch_boost := hybridWatchBoost db user_id c.item_id
  let final := (35/100 * cf + 30/100 * content + 15/100 * recency
      + 10/100 * popularity + 10/100 * friend_boost) * watch_boost
  { item_id := c.item_id
    score := round6 final
    category := c.category.getD "post"
    popularity := popularity
    feed_data := resolveDoc db c }

/-- Function `compute_hybrid` from app.py: score every candidate, then stable-sort by
descending score. -/
def compute_hybrid (db : DB) (now : ℚ) (user_id : String)
    (candidates : List Candidate) : List Scored :=
  (candidates.map (scoreOne db now user_id)).mergeSort
    (fun a b => decide (b.score ≤ a.score))

/-- The update performed on an already-merged record when another occurrence
of the same `item_id` arrives: each of the three score keys present on the
newcomer is combined by `max` against the existing value (default 0); a
newcomer `feed_data` overwrites (last-wins); all other fields keep the first
occurrence's values. -/
def mergeTwo (old c : Candidate) : Candidate :=
  { old with
    cf_score :=
      match c.cf_score with
      | none => old.cf_score
      | some v => some (max (old.cf_score.getD 0) v)
    content_score :=
      match c.content_score with
      | none => old.content_score
      | some v => some (max (old.content_score.getD 0) v)
    social_score :=
      match c.social_score with
      | none => old.social_score
      | some v => some (max (old.social_score.getD 0) v)
    feed_data :=
      match c.feed_data with
      | none => old.feed_data
      | some f => some f }

/-- One step of the `merge_candidates` loop.  The `merged` dict is modelled
directly by its value list: the stored record's `item_id` always equals its
key (`merged[iid] = c` with `iid = c["item_id"]`, and updates preserve it). -/
def insertCand (m : List Candidate) (c : Candidate) : List Candidate :=
  if m.any (fun d => d.item_id == c.item_id) then
    m.map (fun d => if d.item_id == c.item_id then mergeTwo d c else d)
  else m ++ [c]

/-- Function `merge_candidates` from app.py. -/
def merge_candidates (candidate_lists : List (List Candidate)) :
    List Candidate :=
  candidate_lists.foldl (fun m l => l.foldl insertCand m) []

/-- Specification-side maximum of a list of rationals (`none` on `[]`),
used to state the per-field contract of the merge engine. -/
def maxOf : List ℚ → Option ℚ
  | [] => none
  | x :: xs =>
    match maxOf xs with
    | none => some x
    | some m => some (max x m)

/-- The abstract chain of `mergeTwo` updates applied to the records of one
`item_id`, as performed by successive `insertCand` steps. -/
def mergeChain (o : Option Candidate) (cs : List Candidate) : Option Candidate :=
  cs.foldl (fun acc c =>
    match acc with
    | none => some c
    | some d => some (mergeTwo d c)) o

/-- Non-negativity of the three mergeable score fields of a candidate. -/
def nonnegScores (c : Candidate) : Prop :=
  (∀ v, c.cf_score = some v → 0 ≤ v) ∧
  (∀ v, c.content_score = some v → 0 ≤ v) ∧
  (∀ v, c.social_score = some v → 0 ≤ v)

/-- The gorse feeds map built inside `generate_recommendations_for_user`:
active feeds whose id the external recommender returned (as a valid
ObjectId) minus the excluded ids, keyed by id. -/
def gorseFeedsMap (db : DB) (gorse_items : List GorseItem)
    (excluded_items : List String) : List (String × Feed) :=
  let gorse_object_ids :=
    ((gorse_items.map (fun it => it.item_id)).filterMap id).filter isValidOid
  let excluded_oids := excluded_items.filter isValidOid
  (db.feeds.filter (fun f =>
    gorse_object_ids.contains f.oid && !excluded_oids.contains f.oid &&
    f.status == "active")).foldl (fun m f => alistSet m f.oid f) []

/-- The external-recommender candidate loop of
`generate_recommendations_for_user`: skip excluded ids and ids without an
active feed in the map, attach the cf score and snapshot. -/
def candidate_gorse (gorse_items : List GorseItem)
    (feeds_map : List (String × Feed)) (excluded_items : List String) :
    List Candidate :=
  gorse_items.filterMap (fun it =>
    match it.item_id with
    | none => none
    | some iid =>
      if decide (iid ∈ excluded_items) then none
      else
        match alistGet feeds_map iid with
        | none => none
        | some feed =>
          some { item_id := iid
                 cf_score := some it.cf_score
                 category := some "post"
                 popularity_score := some (feed.decayedPopularityScore.getD 0)
                 feed_data := some feed })

/-- The related-items candidate loop of
`generate_recommendations_for_user`: top 20 stored related items by score,
skipping excluded ids. -/
def candidate_related (db : DB) (user_id : String)
    (excluded_items : List String) : List Candidate :=
  (((db.related_items.filter
      (fun r => r.user_id == user_id)).mergeSort
      (fun a b => decide (b.score ≤ a.score))).take 20).filterMap (fun r =>
    if decide (r.related_item_id ∈ excluded_items) then none
    else some { item_id := r.related_item_id, cf_score := some r.score })

/-- The social candidate loop of `generate_recommendations_for_user`:
social-boost entries whose id is not excluded. -/
def candidate_social_filtered (db : DB) (user_id : String)
    (excluded_items : List String) : List Candidate :=
  (candidate_social_boost db user_id).filterMap (fun p =>
    if decide (p.1 ∈ excluded_items) then none
    else some { item_id := p.1, social_score := some p.2 })

/-- Function `generate_recommendations_for_user` from app.py: gathers the six
candidate sources (only the external-recommender, related-items and social
sources are filtered against `excluded_items`), merges, scores, and returns
the scored list together with the gorse feeds map. -/
def generate_recommendations_for_user (db : DB) (env : Env) (user_id : String)
    (excluded_items : List String) : List Scored × List (String × Feed) :=
  let cands1 := candidate_followed_users db user_id 50
  let cands2 := candidate_interest db user_id 30
  let gorse_items := get_gorse_recommendations env
  let feeds_map := gorseFeedsMap db gorse_items excluded_items
  let cands3 := candidate_gorse gorse_items feeds_map excluded_items
  let cands4 := candidate_trending db 20
  let cands5 := candidate_related db user_id excluded_items
  let cands6 := candidate_social_filtered db user_id excluded_items
  let cands := cands1 ++ cands2 ++ cands3 ++ cands4 ++ cands5 ++ cands6
  let merged := merge_candidates [cands]
  (compute_hybrid db env.now user_id merged, feeds_map)

/-- The value of `like.get("targetId") or like.get("feedId")` used by the
recommend route (both for the already-liked set and the friend-likes map). -/
def likeTarget (l : Like) : String :=
  match l.targetId with
  | some t => if t == "" then l.feedId else t
  | none => l.feedId

/-- Truthiness of `like.get("targetId") or like.get("feedId")`. -/
def likeTargetTruthy (l : Like) : Bool :=
  (match l.targetId with
   | some t => t != ""
   | none => false) || l.feedId != ""

/-- The `user_liked_items` set built by the recommend route. -/
def user_liked_items (db : DB) (user_id : String) : List String :=
  if isValidOid user_id then
    (db.likes.filter (fun l => l.userId == user_id && likeTargetTruthy l)).map
      likeTarget
  else []

/-- The `friend_map` built by the recommend route: item id to the list of
followed users who liked it, in like-collection order. -/
def friend_map (db : DB) (user_id : String) : List (String × List String) :=
  if isValidOid user_id then
    let friends := (db.follows.filter (fun fl =>
        fl.followerId == user_id && fl.status == "active")).map
        (fun fl => fl.followingId)
    if friends = [] then []
    else
      (db.likes.filter (fun l => friends.contains l.userId)).foldl
        (fun m l =>
          alistSet m (likeTarget l)
            ((alistGet m (likeTarget l)).getD [] ++ [l.userId])) []
  else []

/-- The personalization mixer (app.py lines 652-673): bucket split by
`is_popular`, ratio slice, `random.shuffle` (the `sh` parameter), and
order-preserving backfill with the not-yet-included records. -/
def mixRecs (sh : List Scored → List Scored) (categorized : List Scored)
    (ratio : ℚ) : List Scored :=
  let popular_recs := categorized.filter (fun r => r.is_popular)
  let personalized_recs := categorized.filter (fun r => !r.is_popular)
  let total_needed := min categorized.length PRELOAD_BUFFER
  let num_personalized := (pyInt ((total_needed : ℚ) * ratio)).toNat
  let num_popular := total_needed - num_personalized
  let mixed := personalized_recs.take num_personalized
      ++ popular_recs.take num_popular
  let shuffled := sh mixed
  if shuffled.length < total_needed then
    shuffled ++ (categorized.filter
        (fun r => decide (r ∉ shuffled))).take (total_needed - shuffled.length)
  else shuffled

/-- The final pass of the recommend route over one mixed record: drop it when
the user already liked it, else annotate it with friend likes and the item
snapshot.  (A string-typed `createdAt` would make the source's `isoformat()`
call raise and abort the request; the model totalizes that rendering detail
to `none`.) -/
def annotateRec (liked : List String) (feeds_map : List (String × Feed))
    (fmap : List (String × List String)) (rec : Scored) : Option FullRec :=
  if liked.contains rec.item_id then none
  else
    let feed : Option Feed :=
      match rec.feed_data with
      | some f => some f
      | none => alistGet feeds_map rec.item_id
    some { item_id := rec.item_id
           score := rec.score
           category := rec.category
           friend_liked_by := (alistGet fmap rec.item_id).getD []
           popularity := rec.popularity
           recommendation_type :=
             if rec.is_popular then "popular" else "personalized"
           metadata := feed.map (fun f =>
             { text := (f.text.getD "").take 200
               title := f.title
               likes := f.likeCount.getD 0
               comments := f.commentCount.getD 0
               created_at :=
                 match f.createdAt with
                 | some (.time t) => some (.time t)
                 | _ => none }) }

/-- The regeneration path of the recommend route: exclusion sets, pipeline,
categorization, mixing, final already-liked filter, and annotation. -/
def regenerate (db : DB) (env : Env) (user_id : String) (ratio : ℚ) :
    List FullRec :=
  let seen_items := get_user_seen_items db user_id
  let created_items := get_user_created_items db user_id
  let excluded_items := seen_items ++ created_items
  let liked := user_liked_items db user_id
  let gen := generate_recommendations_for_user db env user_id excluded_items
  let recommendations := gen.1
  let feeds_map := gen.2
  let categorized_recs := recommendations.map (fun r =>
    { r with is_popular := decide (r.popularity > 1/2) })
  let mixed := mixRecs env.shuffle categorized_recs ratio
  let fmap := friend_map db user_id
  mixed.filterMap (annotateRec liked feeds_map fmap)

/-- Outcome of consulting the cache for a page: serve a slice, or fall
through to full regeneration. -/
inductive ReadResult (α : Type) where
  | hit (items : List α) (total : Nat) (has_more : Bool)
  | regen
deriving DecidableEq

/-- The cache-consultation logic of the recommend route (app.py lines
603-622), for an already-clamped page and limit: an absent or empty cached
list falls through; a slice whose end reaches the cached length while the
cache is shorter than the preload buffer forces regeneration; otherwise the
slice is served with `has_more = end < total`. -/
def readDecision {α : Type} (cached : Option (List α)) (page limit : Nat) :
    ReadResult α :=
  let start := (page - 1) * limit
  let e := start + limit
  match cached with
  | none => .regen
  | some l =>
    if l.length = 0 then .regen
    else if l.length ≤ e && l.length < PRELOAD_BUFFER then .regen
    else .hit ((l.drop start).take limit) l.length (decide (e < l.length))

/-- The cache-consultation block of the recommend route: when a non-empty
session id is supplied and no refresh is requested, consult the cache and
build the hit response, else fall through (`none`). -/
def recommendHitResponse (avail : Bool) (store : CacheStore) (user_id : String)
    (session_id : Option String) (refresh : Bool) (page limit : Nat) :
    Option Response :=
  if pyTruthyStr session_id && !refresh then
    match readDecision (get_cached_recommendations avail store user_id
        session_id) page limit with
    | .hit items total hm =>
      some { user := user_id, page := page, limit := limit
             session_id := session_id, total := total, has_more := hm
             results_count := items.length, recommendations := items
             cache := "hit" }
    | .regen => none
  else none

/-- The `recommend` route (app.py lines 579-744): clamp parameters, consult
the cache when a session id is supplied without refresh, otherwise regenerate,
write the cache, and serve the requested slice. -/
def recommendStep (db : DB) (env : Env) (avail : Bool) (store : CacheStore)
    (user_id : String) (req : Req) : Response × CacheStore :=
  let ratio := max 0 (min 1 req.personalization)
  let page : Nat := (if req.page < 1 then 1 else req.page).toNat
  let limit : Nat :=
    (if req.limit < MIN_PAGE_SIZE then MIN_PAGE_SIZE
     else if req.limit > MAX_PAGE_SIZE then MAX_PAGE_SIZE
     else req.limit).toNat
  let start := (page - 1) * limit
  let e := start + limit
  match recommendHitResponse avail store user_id req.session_id req.refresh
      page limit with
  | some resp => (resp, store)
  | none =>
    let full_list := regenerate db env user_id ratio
    let cachedOut := cache_recommendations avail store user_id full_list
        req.session_id env.freshToken
    ({ user := user_id, page := page, limit := limit
       session_id := cachedOut.1, total := full_list.length
       has_more := decide (e < full_list.length)
       results_count := ((full_list.drop start).take limit).length
       recommendations := (full_list.drop start).take limit
       cache := "miss" }, cachedOut.2)

/-! ## Concrete instances used by counterexamples and witnesses -/

/-- A well-formed (24-hex-char) user id for concrete instances. -/
def exUser : String := "aaaaaaaaaaaaaaaaaaaaaaaa"

/-- Concrete database: the user commented on item `"X"` (so `"X"` is in the
exclusion set), and `"X"` is in the active explore pool (trending). -/
def exDb : DB :=
  { comments := [{ userId := exUser, feedId := "X" }]
    explore_feeds := [{ feedId := "X", status := "active"
                        popularityScore := some 2 }] }

/-- Concrete environment: external recommender unavailable, identity
shuffle. -/
def exEnv : Env := { now := 100 }

/-- The candidate the trending adapter produces for `"X"` on `exDb`. -/
def exCand : Candidate :=
  { item_id := "X", content_score := some (1/2), category := some "post"
    popularity_score := some 2 }

/-- The scored record for `"X"`:
`round6((0.30·0.5 + 0.15·0.2)·1.0) = 0.18 = 9/50`. -/
def exScored : Scored :=
  { item_id := "X", score := 9/50, category := "post", popularity := 0
    feed_data := none }

/-- The served record for `"X"` on `exDb`. -/
def exFull : FullRec :=
  { item_id := "X", score := 9/50, category := "post", friend_liked_by := []
    popularity := 0, recommendation_type := "personalized" }

/-- Concrete cached list of length 25 for the C5 instances. -/
def c5list : List FullRec :=
  (List.range 25).map (fun i =>
    { item_id := toString i, score := 0, category := "post"
      friend_liked_by := [], popularity := 0
      recommendation_type := "personalized" })

/-- Concrete cached list of length 8 for the C5 exhaustion instance. -/
def c8list : List FullRec :=
  (List.range 8).map (fun i =>
    { item_id := toString i, score := 0, category := "post"
      friend_liked_by := [], popularity := 0
      recommendation_type := "personalized" })

/-- Concrete cache store holding a full (length-100) cached list under the
session key of user `"u"`, session `"s"`. -/
def c10store : CacheStore :=
  [("rec_session:u:s", ((List.range 100).map (fun i =>
    { item_id := toString i, score := 0, category := "post"
      friend_liked_by := [], popularity := 0
      recommendation_type := "personalized" }), CACHE_TTL))]

/-- Candidate lists for the C3 witness: two sources supplying the same item
with different scores. -/
def c3ls : List (List Candidate) :=
  [[{ item_id := "a", cf_score := some 1 }],
   [{ item_id := "a", cf_score := some 3, content_score := some 2 }]]

/-- The record `merge_candidates c3ls` produces: `cf_score` is the max of
the two sources, `content_score` comes from the only source supplying it. -/
def c3out : Candidate :=
  { item_id := "a", cf_score := some 3, content_score := some 2 }

/-- Candidates for the C2 witness. -/
def c2cands : List Candidate :=
  [{ item_id := "Y", cf_score := some 1 }]

/-- The scored record for the C2 witness:
`round6((0.35·1 + 0.15·0.2)·1.0) = 0.38 = 19/50`. -/
def c2scored : Scored :=
  { item_id := "Y", score := 19/50, category := "post", popularity := 0
    feed_data := none }

/-- The 40 personalized records of the C4 witness instance. -/
def c4pers : List Scored :=
  (List.range 40).map (fun i =>
    { item_id := "p" ++ toString i, score := 0, category := "post"
      popularity := 0, feed_data := none, is_popular := false })

/-- The 60 popular records of the C4 witness instance. -/
def c4pop : List Scored :=
  (List.range 60).map (fun i =>
    { item_id := "q" ++ toString i, score := 0, category := "post"
      popularity := 1, feed_data := none, is_popular := true })

/-- The C4 witness scored list: 40 personalized then 60 popular records. -/
def c4cat : List Scored := c4pers ++ c4pop

/-- The ratio slice of the C4 witness: all 40 personalized records
(`num_personalized = 70` capped by availability) and the first 30 popular
records. -/
def c4mixed : List Scored := c4pers ++ c4pop.take 30

/-! ## Claim C6: the recency step function -/

/-- C6, counterexample: the claim says a creation timestamp that cannot be
parsed yields recency 0.2, but the source substitutes the current time for an
unparseable string, so the item is scored as brand new: recency 1.0. -/
theorem claim_C6_counterexample :
    compute_recency_score 100 (some (.badString "not-a-timestamp")) = 1 ∧
    (1 : ℚ) ≠ 1/5 := by
  exact ⟨rfl, by norm_num⟩

/-- C6 (amended): the recency score is 1.0 for age under 1 hour, 0.8 under
24 hours, 0.5 under 72 hours and 0.2 otherwise; a missing (or falsy empty
string) timestamp scores 0.2, but an unparseable non-empty string is replaced
by the current time, hence scores 1.0 rather than 0.2. -/
theorem claim_C6_amended (now : ℚ) :
    compute_recency_score now none = 1/5 ∧
    compute_recency_score now (some (.badString "")) = 1/5 ∧
    (∀ s : String, s ≠ "" →
      compute_recency_score now (some (.badString s)) = 1) ∧
    (∀ t : ℚ, now - t < 1 →
      compute_recency_score now (some (.time t)) = 1) ∧
    (∀ t : ℚ, 1 ≤ now - t → now - t < 24 →
      compute_recency_score now (some (.time t)) = 4/5) ∧
    (∀ t : ℚ, 24 ≤ now - t → now - t < 72 →
      compute_recency_score now (some (.time t)) = 1/2) ∧
    (∀ t : ℚ, 72 ≤ now - t →
      compute_recency_score now (some (.time t)) = 1/5) := by
  refine ⟨rfl, rfl, ?_, ?_, ?_, ?_, ?_⟩
  · intro s hs
    simp only [compute_recency_score, if_neg hs]
  · intro t ht
    simp only [compute_recency_score, if_pos ht]
  · intro t ht1 ht2
    simp only [compute_recency_score]
    rw [if_neg (by linarith), if_pos ht2]
  · intro t ht1 ht2
    simp only [compute_recency_score]
    rw [if_neg (by linarith), if_neg (by linarith), if_pos ht2]
  · intro t ht
    simp only [compute_recency_score]
    rw [if_neg (by linarith), if_neg (by linarith), if_neg (by linarith)]

/-- C6, witness: the amended theorem evaluated at the spec's sample ages
0.5h, 10h, 48h, 200h and at an unparseable timestamp. -/
theorem claim_C6_witness :
    compute_recency_score 100 (some (.time (199/2))) = 1 ∧
    compute_recency_score 100 (some (.time 90)) = 4/5 ∧
    compute_recency_score 100 (some (.time 52)) = 1/2 ∧
    compute_recency_score 100 (some (.time (-100))) = 1/5 ∧
    compute_recency_score 100 (some (.badString "zzz")) = 1 :=
  ⟨(claim_C6_amended 100).2.2.2.1 (199/2) (by norm_num),
   (claim_C6_amended 100).2.2.2.2.1 90 (by norm_num) (by norm_num),
   (claim_C6_amended 100).2.2.2.2.2.1 52 (by norm_num) (by norm_num),
   (claim_C6_amended 100).2.2.2.2.2.2 (-100) (by norm_num),
   (claim_C6_amended 100).2.2.1 "zzz" (by decide)⟩

/-! ## Claim C7: external-recommender response normalization -/

/-- C7, counterexample: a response entry with none of the identifier keys is
not skipped; it is emitted with `item_id = None`, so a record with a missing
item identifier does appear in the normalized list. -/
theorem claim_C7_counterexample :
    parse_gorse_items (some [GEntry.dict {}]) =
      [{ item_id := none, cf_score := 0 }] ∧
    ({ item_id := none, cf_score := 0 } : GorseItem).item_id = none := by
  exact ⟨rfl, rfl⟩

/-- Auxiliary: the `parse_gorse_items` loop (foldl with append) is the map of
the per-entry normalization. -/
theorem parse_gorse_items_foldl (es : List GEntry) (acc : List GorseItem) :
    es.foldl (fun normalized it => normalized ++ [normalizeGorseEntry it]) acc
      = acc ++ es.map normalizeGorseEntry := by
  induction es generalizing acc with
  | nil => simp
  | cons e es ih => simp [ih]

/-- C7 (amended): every entry of a list-shaped response is normalized to one
`(item_id, cf_score)` record, score defaulting to 0 when no truthy score key
is present; an entry whose raw value yields no identifier is still emitted,
with `item_id = None`, rather than skipped. -/
theorem claim_C7_amended (es : List GEntry) :
    parse_gorse_items (some es) = es.map normalizeGorseEntry ∧
    parse_gorse_items none = [] ∧
    (∀ d : GDict, d.Id = none → d.ItemId = none → d.item_id = none →
      d.id = none → (normalizeGorseEntry (.dict d)).item_id = none) ∧
    (∀ d : GDict, d.Score = none → d.score = none →
      (normalizeGorseEntry (.dict d)).cf_score = 0) := by
  refine ⟨?_, rfl, ?_, ?_⟩
  · simpa using parse_gorse_items_foldl es []
  · intro d h1 h2 h3 h4
    simp [normalizeGorseEntry, gorseEntryId, truthyS, h1, h2, h3, h4]
  · intro d h1 h2
    simp [normalizeGorseEntry, gorseEntryScore, truthyQ, h1, h2]

/-- C7, witness: the amended theorem at a concrete heterogeneous response. -/
theorem claim_C7_witness :
    parse_gorse_items (some [GEntry.dict { ItemId := some "a", Score := some 3 },
        GEntry.dict {}, GEntry.rawStr "b"]) =
      [{ item_id := some "a", cf_score := 3 },
       { item_id := none, cf_score := 0 },
       { item_id := some "b", cf_score := 0 }] ∧
    (normalizeGorseEntry (.dict {})).item_id = none ∧
    (normalizeGorseEntry (.dict {})).cf_score = 0 := by
  refine ⟨?_, ?_, ?_⟩
  · rw [(claim_C7_amended [GEntry.dict { ItemId := some "a", Score := some 3 },
        GEntry.dict {}, GEntry.rawStr "b"]).1]
    decide
  · exact (claim_C7_amended []).2.2.1 {} rfl rfl rfl rfl
  · exact (claim_C7_amended []).2.2.2 {} rfl rfl

/-! ## Claim C5: cache pagination and the exhaustion rule -/

/-- C5, counterexample: the claim's example says a cached list of length 25
with page=3, limit=10 is served as a hit [20:25) with `has_more = false`;
but end = 30 ≥ 25 and 25 < 100 (the preload buffer), so the source forces
regeneration instead. -/
theorem claim_C5_counterexample :
    readDecision (some c5list) 3 10 = ReadResult.regen ∧
    readDecision (some c5list) 3 10 ≠
      ReadResult.hit ((c5list.drop 20).take 10) 25 false := by
  refine ⟨by decide, by decide⟩

/-- C5 (amended): for a cached list found by a session read, with
start = (page-1)·limit and end = start+limit: if end ≥ length and
length < 100 the request forces regeneration (this includes the claim's
length-25 page=3 example, which is not served as a hit); otherwise the slice
[start:end) is served as a hit with `has_more = (end < length)` — as in the
length-25 page=2 example and, for full caches, tail pages. -/
theorem claim_C5_amended {α : Type} (l : List α) (page limit : Nat) :
    (l.length ≤ (page - 1) * limit + limit ∧ l.length < PRELOAD_BUFFER →
      readDecision (some l) page limit = ReadResult.regen) ∧
    (¬(l.length ≤ (page - 1) * limit + limit ∧ l.length < PRELOAD_BUFFER) →
      readDecision (some l) page limit =
        ReadResult.hit ((l.drop ((page - 1) * limit)).take limit) l.length
          (decide ((page - 1) * limit + limit < l.length))) := by
  constructor
  · intro h
    simp only [readDecision]
    rcases Nat.eq_zero_or_pos l.length with h0 | h0
    · rw [if_pos h0]
    · rw [if_neg (by omega),
        if_pos (by simp only [Bool.and_eq_true, decide_eq_true_eq]; exact h)]
  · intro h
    have h0 : l.length ≠ 0 := by
      intro hz
      exact h ⟨by omega, by simp only [PRELOAD_BUFFER]; omega⟩
    simp only [readDecision]
    rw [if_neg h0, if_neg (by simpa using h)]

/-! ## Merge engine lemmas (shared by C3, C9 and C1) -/

/-- An update never changes the stored record's identity. -/
theorem mergeTwo_item_id (d c : Candidate) :
    (mergeTwo d c).item_id = d.item_id := rfl

/-- The key list of the merged dict after one insertion. -/
theorem insertCand_ids (m : List Candidate) (c : Candidate) :
    (insertCand m c).map (fun d => d.item_id) =
      if m.any (fun d => d.item_id == c.item_id) then
        m.map (fun d => d.item_id)
      else m.map (fun d => d.item_id) ++ [c.item_id] := by
  by_cases h : m.any (fun d => d.item_id == c.item_id) = true
  · rw [if_pos h]
    unfold insertCand
    rw [if_pos h, List.map_map]
    refine List.map_congr_left ?_
    intro d _
    simp only [Function.comp_apply]
    split <;> rfl
  · rw [if_neg h]
    unfold insertCand
    rw [if_neg h, List.map_append]
    rfl

/-- One insertion preserves distinctness of the keys. -/
theorem ids_nodup_insertCand {m : List Candidate} (c : Candidate)
    (h : (m.map (fun d => d.item_id)).Nodup) :
    ((insertCand m c).map (fun d => d.item_id)).Nodup := by
  rw [insertCand_ids]
  by_cases hany : m.any (fun d => d.item_id == c.item_id) = true
  · rw [if_pos hany]; exact h
  · rw [if_neg hany]
    have hnot : c.item_id ∉ m.map (fun d => d.item_id) := by
      intro hmem
      rcases List.mem_map.mp hmem with ⟨d, hd, hid⟩
      exact hany (List.any_eq_true.mpr ⟨d, hd, by simp [hid]⟩)
    simp [List.nodup_append, h, hnot]

/-- The merge loop preserves distinctness of the keys. -/
theorem ids_nodup_foldl_insertCand (cs : List Candidate) (m : List Candidate)
    (h : (m.map (fun d => d.item_id)).Nodup) :
    ((cs.foldl insertCand m).map (fun d => d.item_id)).Nodup := by
  induction cs generalizing m with
  | nil => exact h
  | cons c cs ih => exact ih _ (ids_nodup_insertCand c h)

/-- The nested merge fold is the fold over the flattened input. -/
theorem merge_candidates_eq_foldl (ls : List (List Candidate)) :
    merge_candidates ls = ls.flatten.foldl insertCand [] := by
  have h : ∀ (ls : List (List Candidate)) (m : List Candidate),
      ls.foldl (fun m l => l.foldl insertCand m) m
        = ls.flatten.foldl insertCand m := by
    intro ls
    induction ls with
    | nil => intro m; rfl
    | cons l ls ih =>
      intro m
      simp only [List.foldl_cons, List.flatten_cons, List.foldl_append]
      exact ih _
  exact h ls []

/-- Each `item_id` appears at most once in the merge output. -/
theorem merge_ids_nodup (ls : List (List Candidate)) :
    ((merge_candidates ls).map (fun d => d.item_id)).Nodup := by
  rw [merge_candidates_eq_foldl]
  exact ids_nodup_foldl_insertCand _ [] (by simp)

/-- Searching a mapped list for an identity-preserving map commutes with the
map. -/
theorem find?_map_of_id_preserved {g : Candidate → Candidate}
    (hg : ∀ d, (g d).item_id = d.item_id) (m : List Candidate) (i : String) :
    (m.map g).find? (fun d => d.item_id == i)
      = (m.find? (fun d => d.item_id == i)).map g := by
  rw [List.find?_map]
  have hfun : ((fun d => d.item_id == i) ∘ g) = (fun d => d.item_id == i) := by
    funext d
    simp [Function.comp, hg]
  rw [hfun]

/-- How one insertion transforms the record found at a given key. -/
theorem find?_insertCand (m : List Candidate) (c : Candidate) (i : String) :
    (insertCand m c).find? (fun d => d.item_id == i) =
      if c.item_id == i then
        match m.find? (fun d => d.item_id == i) with
        | none => some c
        | some d => some (mergeTwo d c)
      else m.find? (fun d => d.item_id == i) := by
  by_cases hany : m.any (fun d => d.item_id == c.item_id) = true
  · unfold insertCand
    rw [if_pos hany]
    rw [find?_map_of_id_preserved (fun d => by split <;> rfl)]
    by_cases hci : (c.item_id == i) = true
    · rw [if_pos hci]
      have h3 : c.item_id = i := by simpa using hci
      rcases hf : m.find? (fun d => d.item_id == i) with _ | d
      · exfalso
        rcases List.any_eq_true.mp hany with ⟨d, hd, hdc⟩
        have h2 : d.item_id = c.item_id := by simpa using hdc
        exact (List.find?_eq_none.mp hf d hd) (by simp [h2, h3])
      · have h4 : d.item_id = i := by simpa using List.find?_some hf
        have h5 : (d.item_id == c.item_id) = true := by simp [h4, h3]
        rw [hf]
        show some (if (d.item_id == c.item_id) = true then mergeTwo d c else d)
          = some (mergeTwo d c)
        rw [if_pos h5]
    · rw [if_neg hci]
      rcases hf : m.find? (fun d => d.item_id == i) with _ | d
      · rw [hf]; rfl
      · have h4 : d.item_id = i := by simpa using List.find?_some hf
        have h5 : (d.item_id == c.item_id) = false := by
          rw [beq_eq_false_iff_ne]
          intro heq
          exact hci (by simp [← heq, h4])
        rw [hf]
        show some (if (d.item_id == c.item_id) = true then mergeTwo d c else d)
          = some d
        rw [if_neg (by simp [h5])]
  · unfold insertCand
    rw [if_neg hany, List.find?_append]
    by_cases hci : (c.item_id == i) = true
    · rw [if_pos hci]
      have h3 : c.item_id = i := by simpa using hci
      have hfm : m.find? (fun d => d.item_id == i) = none := by
        rw [List.find?_eq_none]
        intro d hd hdi
        have h4 : d.item_id = i := by simpa using hdi
        exact hany (List.any_eq_true.mpr ⟨d, hd, by simp [h4, h3]⟩)
      rw [hfm, @List.find?_cons_of_pos _ (fun d => d.item_id == i) c [] hci]
      rfl
    · rw [if_neg hci]
      have h1 : ([c].find? (fun d => d.item_id == i)) = none := by
        rw [@List.find?_cons_of_neg _ (fun d => d.item_id == i) c [] hci]
        rfl
      rw [h1, Option.or_none]

/-- The record found at key `i` after the whole fold is the `mergeChain` of
the input records carrying `i`. -/
theorem find?_foldl_insertCand (cs : List Candidate) (m : List Candidate)
    (i : String) :
    ((cs.foldl insertCand m).find? (fun d => d.item_id == i)) =
      mergeChain (m.find? (fun d => d.item_id == i))
        (cs.filter (fun c => c.item_id == i)) := by
  induction cs generalizing m with
  | nil => rfl
  | cons c cs ih =>
    simp only [List.foldl_cons]
    rw [ih, find?_insertCand]
    by_cases hci : (c.item_id == i) = true
    · rw [if_pos hci,
        @List.filter_cons_of_pos _ (fun c => c.item_id == i) c cs hci]
      rfl
    · rw [if_neg hci,
        @List.filter_cons_of_neg _ (fun c => c.item_id == i) c cs hci]

/-- Chain evaluation from a present accumulator. -/
theorem mergeChain_some (x : Candidate) (cs : List Candidate) :
    mergeChain (some x) cs = some (cs.foldl mergeTwo x) := by
  induction cs generalizing x with
  | nil => rfl
  | cons c cs ih => simpa [mergeChain] using ih (mergeTwo x c)

/-- Chain evaluation from an absent accumulator and a first record. -/
theorem mergeChain_cons_none (y : Candidate) (ys : List Candidate) :
    mergeChain none (y :: ys) = some (ys.foldl mergeTwo y) := by
  simpa [mergeChain] using mergeChain_some y ys

/-- In a list with distinct keys, searching for a member's key finds that
member. -/
theorem find?_self_of_nodup_ids :
    ∀ (m : List Candidate), (m.map (fun d => d.item_id)).Nodup →
      ∀ c ∈ m, m.find? (fun d => d.item_id == c.item_id) = some c := by
  intro m
  induction m with
  | nil => intro _ c hc; cases hc
  | cons d m ih =>
    intro hnd c hc
    have hnd' : d.item_id ∉ m.map (fun d => d.item_id) ∧
        (m.map (fun d => d.item_id)).Nodup := List.nodup_cons.mp hnd
    rcases List.mem_cons.mp hc with rfl | hc'
    · exact List.find?_cons_of_pos _ (by simp)
    · have hne : (d.item_id == c.item_id) = false := by
        rw [beq_eq_false_iff_ne]
        intro heq
        exact hnd'.1 (heq ▸ List.mem_map_of_mem (fun d => d.item_id) hc')
      rw [List.find?_cons_of_neg _ (by simp [hne])]
      exact ih hnd'.2 c hc'

/-- Unfolding lemma for `maxOf`. -/
theorem maxOf_cons (x : ℚ) (l : List ℚ) :
    maxOf (x :: l) = some (match maxOf l with
      | none => x
      | some m => max x m) := by
  cases h : maxOf l <;> simp [maxOf, h]

/-- Two leading elements of a `maxOf` collapse to their max. -/
theorem maxOf_cons_cons (u w : ℚ) (l : List ℚ) :
    maxOf (u :: w :: l) = maxOf (max u w :: l) := by
  cases h : maxOf l with
  | none => simp [maxOf, h]
  | some m => simp [maxOf, h, max_assoc]

/-- The function `maxOf` respects permutation. -/
theorem maxOf_perm {l l' : List ℚ} (h : l.Perm l') : maxOf l = maxOf l' := by
  induction h with
  | nil => rfl
  | cons x _ ih => simp [maxOf_cons, ih]
  | swap x y l => rw [maxOf_cons_cons, maxOf_cons_cons, max_comm]
  | trans _ _ ih1 ih2 => exact ih1.trans ih2

/-- A chain of `mergeTwo` updates computes, on any one of the three score
fields, exactly the maximum over the occurrences supplying that field
(provided supplied scores are non-negative). -/
theorem foldl_mergeTwo_field (get : Candidate → Option ℚ)
    (hget : ∀ d c, get (mergeTwo d c) =
      match get c with
      | none => get d
      | some v => some (max ((get d).getD 0) v)) :
    ∀ (cs : List Candidate) (x : Candidate),
      (∀ v, get x = some v → 0 ≤ v) →
      (∀ c ∈ cs, ∀ v, get c = some v → 0 ≤ v) →
      get (cs.foldl mergeTwo x) = maxOf ((x :: cs).filterMap get) := by
  intro cs
  induction cs with
  | nil =>
    intro x _ _
    cases hx : get x <;> simp [List.filterMap_cons, hx, maxOf]
  | cons c cs ih =>
    intro x hx hcs
    have hw : ∀ v, get c = some v → 0 ≤ v := hcs c (List.mem_cons_self c cs)
    have hx' : ∀ v, get (mergeTwo x c) = some v → 0 ≤ v := by
      intro v hv
      rw [hget] at hv
      cases hc : get c with
      | none => rw [hc] at hv; exact hx v hv
      | some w =>
        rw [hc] at hv
        injection hv with hv
        calc (0:ℚ) ≤ w := hw w hc
          _ ≤ max ((get x).getD 0) w := le_max_right _ _
          _ = v := hv
    rw [List.foldl_cons,
      ih (mergeTwo x c) hx' (fun c' h' => hcs c' (List.mem_cons_of_mem _ h'))]
    cases hc : get c with
    | none =>
      simp [List.filterMap_cons, hget, hc]
    | some w =>
      cases hx2 : get x with
      | none =>
        simp [List.filterMap_cons, hget, hc, hx2,
          max_eq_right (hw w hc)]
      | some u =>
        simp only [List.filterMap_cons, hget, hc, hx2, Option.getD_some]
        exact (maxOf_cons_cons u w _).symm

/-- A chain of `mergeTwo` updates keeps, on `feed_data`, the last supplied
snapshot (last-wins). -/
theorem foldl_mergeTwo_last (get : Candidate → Option Feed)
    (hget : ∀ d c, get (mergeTwo d c) = (get c).or (get d)) :
    ∀ (cs : List Candidate) (x : Candidate),
      get (cs.foldl mergeTwo x) = ((x :: cs).filterMap get).getLast? := by
  intro cs
  induction cs with
  | nil =>
    intro x
    cases hx : get x <;> simp [List.filterMap_cons, hx]
  | cons c cs ih =>
    intro x
    rw [List.foldl_cons, ih (mergeTwo x c)]
    cases hc : get c with
    | none =>
      simp [List.filterMap_cons, hget, hc]
    | some f =>
      cases hx : get x with
      | none => simp [List.filterMap_cons, hget, hc, hx]
      | some g =>
        simp [List.filterMap_cons, hget, hc, hx, List.getLast?_cons_cons]

/-- The per-item contract of the merge engine: each output record's three
score fields are the maxima over the occurrences supplying them, and its
`feed_data` is the last supplied snapshot. -/
theorem merge_field_spec (ls : List (List Candidate))
    (hnn : ∀ c ∈ ls.flatten, nonnegScores c) :
    ∀ c ∈ merge_candidates ls,
      c.cf_score = maxOf ((ls.flatten.filter
        (fun d => d.item_id == c.item_id)).filterMap (fun d => d.cf_score)) ∧
      c.content_score = maxOf ((ls.flatten.filter
        (fun d => d.item_id == c.item_id)).filterMap (fun d => d.content_score)) ∧
      c.social_score = maxOf ((ls.flatten.filter
        (fun d => d.item_id == c.item_id)).filterMap (fun d => d.social_score)) ∧
      c.feed_data = ((ls.flatten.filter
        (fun d => d.item_id == c.item_id)).filterMap
          (fun d => d.feed_data)).getLast? := by
  intro c hc
  have hnd := merge_ids_nodup ls
  have hfind := find?_self_of_nodup_ids _ hnd c hc
  rw [merge_candidates_eq_foldl, find?_foldl_insertCand] at hfind
  cases hfl : ls.flatten.filter (fun d => d.item_id == c.item_id) with
  | nil =>
    rw [hfl, List.find?_nil] at hfind
    exact Option.noConfusion hfind
  | cons y ys =>
    rw [hfl, List.find?_nil, mergeChain_cons_none] at hfind
    injection hfind with hfind
    have hy : y ∈ ls.flatten := List.mem_of_mem_filter
      (by rw [hfl]; exact List.mem_cons_self y ys)
    have hys : ∀ c' ∈ ys, c' ∈ ls.flatten := fun c' h' =>
      List.mem_of_mem_filter (by rw [hfl]; exact List.mem_cons_of_mem y h')
    refine ⟨?_, ?_, ?_, ?_⟩
    · rw [← hfind]
      exact foldl_mergeTwo_field (fun d => d.cf_score) (fun d c => rfl) ys y
        (fun v hv => (hnn y hy).1 v hv)
        (fun c' h' v hv => (hnn c' (hys c' h')).1 v hv)
    · rw [← hfind]
      exact foldl_mergeTwo_field (fun d => d.content_score) (fun d c => rfl)
        ys y (fun v hv => (hnn y hy).2.1 v hv)
        (fun c' h' v hv => (hnn c' (hys c' h')).2.1 v hv)
    · rw [← hfind]
      exact foldl_mergeTwo_field (fun d => d.social_score) (fun d c => rfl)
        ys y (fun v hv => (hnn y hy).2.2 v hv)
        (fun c' h' v hv => (hnn c' (hys c' h')).2.2 v hv)
    · rw [← hfind]
      exact foldl_mergeTwo_last (fun d => d.feed_data)
        (fun d c => by cases hcf : c.feed_data <;> simp [mergeTwo, hcf]) ys y

/-- The merge output carries exactly the input `item_id`s. -/
theorem merge_ids_mem_iff (ls : List (List Candidate)) (i : String) :
    i ∈ (merge_candidates ls).map (fun d => d.item_id) ↔
      i ∈ ls.flatten.map (fun d => d.item_id) := by
  constructor
  · intro h
    rcases List.mem_map.mp h with ⟨d, hd, rfl⟩
    have hfind : (merge_candidates ls).find?
        (fun e => e.item_id == d.item_id) ≠ none := by
      intro hnone
      exact (List.find?_eq_none.mp hnone d hd) (by simp)
    rw [merge_candidates_eq_foldl, find?_foldl_insertCand] at hfind
    cases hfl : ls.flatten.filter (fun e => e.item_id == d.item_id) with
    | nil =>
      rw [hfl, List.find?_nil] at hfind
      exact absurd rfl hfind
    | cons y ys =>
      have hy := List.mem_filter.mp
        (show y ∈ ls.flatten.filter (fun e => e.item_id == d.item_id) by
          rw [hfl]; exact List.mem_cons_self y ys)
      exact List.mem_map.mpr ⟨y, hy.1, by simpa using hy.2⟩
  · intro h
    rcases List.mem_map.mp h with ⟨d, hd, rfl⟩
    have hdf : d ∈ ls.flatten.filter (fun e => e.item_id == d.item_id) :=
      List.mem_filter.mpr ⟨hd, by simp⟩
    cases hfl : ls.flatten.filter (fun e => e.item_id == d.item_id) with
    | nil => rw [hfl] at hdf; cases hdf
    | cons y ys =>
      have hfind : (merge_candidates ls).find?
          (fun e => e.item_id == d.item_id) = some (ys.foldl mergeTwo y) := by
        rw [merge_candidates_eq_foldl, find?_foldl_insertCand, hfl,
          List.find?_nil, mergeChain_cons_none]
      exact List.mem_map.mpr ⟨_, List.mem_of_find?_eq_some hfind,
        by simpa using List.find?_some hfind⟩

/-! ## Claim C3: the merge contract -/

/-- C3: on candidate lists with non-negative score fields, the merge outputs
each input `item_id` exactly once; per repeated item, each of `cf_score`,
`content_score`, `social_score` is independently the maximum over the sources
supplying it (omitted fields leave the value untouched), so the per-field
result is invariant under regrouping/reordering of the sources; `feed_data`
is taken from the occurrence merged last among those supplying it. -/
theorem claim_C3 (ls : List (List Candidate))
    (hnn : ∀ c ∈ ls.flatten, nonnegScores c) :
    (((merge_candidates ls).map (fun c => c.item_id)).Nodup ∧
      ∀ i : String, i ∈ (merge_candidates ls).map (fun c => c.item_id) ↔
        i ∈ ls.flatten.map (fun c => c.item_id)) ∧
    (∀ c ∈ merge_candidates ls,
      c.cf_score = maxOf ((ls.flatten.filter
        (fun d => d.item_id == c.item_id)).filterMap (fun d => d.cf_score)) ∧
      c.content_score = maxOf ((ls.flatten.filter
        (fun d => d.item_id == c.item_id)).filterMap (fun d => d.content_score)) ∧
      c.social_score = maxOf ((ls.flatten.filter
        (fun d => d.item_id == c.item_id)).filterMap (fun d => d.social_score)) ∧
      c.feed_data = ((ls.flatten.filter
        (fun d => d.item_id == c.item_id)).filterMap
          (fun d => d.feed_data)).getLast?) ∧
    (∀ ls' : List (List Candidate), ls'.flatten.Perm ls.flatten →
      ∀ c ∈ merge_candidates ls, ∀ c' ∈ merge_candidates ls',
        c.item_id = c'.item_id →
        c.cf_score = c'.cf_score ∧ c.content_score = c'.content_score ∧
          c.social_score = c'.social_score) := by
  refine ⟨⟨merge_ids_nodup ls, merge_ids_mem_iff ls⟩,
    merge_field_spec ls hnn, ?_⟩
  intro ls' hperm c hc c' hc' hid
  have hnn' : ∀ d ∈ ls'.flatten, nonnegScores d := fun d hd =>
    hnn d (hperm.mem_iff.mp hd)
  have h1 := merge_field_spec ls hnn c hc
  have h2 := merge_field_spec ls' hnn' c' hc'
  have hpf : ∀ (get : Candidate → Option ℚ),
      maxOf ((ls.flatten.filter
        (fun d => d.item_id == c'.item_id)).filterMap get) =
      maxOf ((ls'.flatten.filter
        (fun d => d.item_id == c'.item_id)).filterMap get) := by
    intro get
    exact (maxOf_perm (List.Perm.filterMap get
      (hperm.filter (fun d => d.item_id == c'.item_id)))).symm
  refine ⟨?_, ?_, ?_⟩
  · rw [h1.1, h2.1, hid]; exact hpf _
  · rw [h1.2.1, h2.2.1, hid]; exact hpf _
  · rw [h1.2.2.1, h2.2.2.1, hid]; exact hpf _

/-- C3, witness: the merge contract evaluated on two concrete sources
supplying the same item. -/
theorem claim_C3_witness :
    c3out.cf_score = maxOf ((c3ls.flatten.filter
      (fun d => d.item_id == c3out.item_id)).filterMap (fun d => d.cf_score)) ∧
    c3out.content_score = maxOf ((c3ls.flatten.filter
      (fun d => d.item_id == c3out.item_id)).filterMap
        (fun d => d.content_score)) := by
  have hnn : ∀ c ∈ c3ls.flatten, nonnegScores c := by
    intro c hc
    have hfl : c3ls.flatten = [{ item_id := "a", cf_score := some 1 },
        { item_id := "a", cf_score := some 3, content_score := some 2 }] := rfl
    rw [hfl] at hc
    rcases List.mem_cons.mp hc with rfl | hc2
    · refine ⟨fun v hv => ?_, fun v hv => ?_, fun v hv => ?_⟩
      · injection hv with h; rw [← h]; norm_num
      · cases hv
      · cases hv
    rcases List.mem_cons.mp hc2 with rfl | hc3
    · refine ⟨fun v hv => ?_, fun v hv => ?_, fun v hv => ?_⟩
      · injection hv with h; rw [← h]; norm_num
      · injection hv with h; rw [← h]; norm_num
      · cases hv
    · cases hc3
  have h := (claim_C3 c3ls hnn).2.1 c3out (by decide)
  exact ⟨h.1, h.2.1⟩

/-! ## Claim C2: the hybrid scoring formula and its bound -/

/-- The recency step function always lies in [0.2, 1]. -/
theorem compute_recency_score_bounds (now : ℚ) (ts : Option TS) :
    1/5 ≤ compute_recency_score now ts ∧ compute_recency_score now ts ≤ 1 := by
  unfold compute_recency_score
  rcases ts with _ | tv
  · norm_num
  rcases tv with t | s
  · dsimp only
    split_ifs <;> norm_num
  · dsimp only
    split_ifs <;> norm_num

/-- The watch multiplier is either 1 or 1.2. -/
theorem hybridWatchBoost_cases (db : DB) (user_id iid : String) :
    hybridWatchBoost db user_id iid = 1 ∨
      hybridWatchBoost db user_id iid = 6/5 := by
  unfold hybridWatchBoost
  cases db.watch.find? (fun w => w.user_id == user_id && w.item_id == iid) with
  | none => left; rfl
  | some w =>
    dsimp only
    split_ifs
    · right; rfl
    · left; rfl

/-- Rounding to 6 decimals preserves non-negativity. -/
theorem round6_nonneg {q : ℚ} (h : 0 ≤ q) : 0 ≤ round6 q := by
  unfold round6
  apply div_nonneg _ (by norm_num)
  have h1 : (0:ℤ) ≤ round (q * 1000000) := by
    rw [round_eq]
    exact Int.le_floor.mpr (by push_cast; linarith)
  exact_mod_cast h1

/-- Rounding to 6 decimals preserves the 1.2 upper bound (1.2·10^6 is an
integer). -/
theorem round6_le_of_le {q : ℚ} (h : q ≤ 6/5) : round6 q ≤ 6/5 := by
  unfold round6
  rw [div_le_iff₀ (by norm_num : (0:ℚ) < 1000000)]
  have h1 : round (q * 1000000) ≤ round ((6/5 : ℚ) * 1000000) := by
    rw [round_eq, round_eq]
    exact Int.floor_le_floor (by linarith)
  have h2 : round ((6/5 : ℚ) * 1000000) = 1200000 := by
    norm_num [round_eq]
  rw [h2] at h1
  calc ((round (q * 1000000) : ℤ) : ℚ) ≤ ((1200000 : ℤ) : ℚ) := by
        exact_mod_cast h1
    _ = 6/5 * 1000000 := by norm_num

/-- The score produced for one candidate, written out. -/
theorem scoreOne_score (db : DB) (now : ℚ) (user_id : String) (c : Candidate) :
    (scoreOne db now user_id c).score =
      round6 ((35/100 * c.cf_score.getD 0 + 30/100 * c.content_score.getD 0
        + 15/100 * compute_recency_score now
            ((resolveDoc db c).bind (fun f => f.createdAt))
        + 10/100 * hybridPopularity db c
        + 10/100 * hybridFriendBoost db user_id c.item_id)
        * hybridWatchBoost db user_id c.item_id) := rfl

/-- C2: every scored record's score is the weighted formula
(0.35·cf + 0.30·content + 0.15·recency + 0.10·popularity + 0.10·friend) ×
watch_boost, rounded to 6 decimals, with absent fields defaulting to 0; and
whenever the five signals lie in [0,1] the result lies in
[0, 1.2·(0.35+0.30+0.15+0.10+0.10)]. -/
theorem claim_C2 (db : DB) (now : ℚ) (user_id : String)
    (cands : List Candidate) (s : Scored)
    (hs : s ∈ compute_hybrid db now user_id cands) :
    (∃ c ∈ cands, s = scoreOne db now user_id c ∧
      s.score = round6 ((35/100 * c.cf_score.getD 0
        + 30/100 * c.content_score.getD 0
        + 15/100 * compute_recency_score now
            ((resolveDoc db c).bind (fun f => f.createdAt))
        + 10/100 * hybridPopularity db c
        + 10/100 * hybridFriendBoost db user_id c.item_id)
        * hybridWatchBoost db user_id c.item_id)) ∧
    ((∀ c ∈ cands,
        (0 ≤ c.cf_score.getD 0 ∧ c.cf_score.getD 0 ≤ 1) ∧
        (0 ≤ c.content_score.getD 0 ∧ c.content_score.getD 0 ≤ 1) ∧
        (0 ≤ hybridPopularity db c ∧ hybridPopularity db c ≤ 1) ∧
        (0 ≤ hybridFriendBoost db user_id c.item_id ∧
          hybridFriendBoost db user_id c.item_id ≤ 1)) →
      0 ≤ s.score ∧
        s.score ≤ 6/5 * (35/100 + 30/100 + 15/100 + 10/100 + 10/100)) := by
  have hmem : s ∈ cands.map (scoreOne db now user_id) :=
    (List.mergeSort_perm (cands.map (scoreOne db now user_id))
      (fun a b => decide (b.score ≤ a.score))).mem_iff.mp hs
  rcases List.mem_map.mp hmem with ⟨c, hc, hsc⟩
  subst hsc
  refine ⟨⟨c, hc, rfl, rfl⟩, ?_⟩
  intro hb
  obtain ⟨⟨h1, h2⟩, ⟨h3, h4⟩, ⟨h5, h6⟩, ⟨h7, h8⟩⟩ := hb c hc
  have hR := compute_recency_score_bounds now
    ((resolveDoc db c).bind (fun f => f.createdAt))
  rw [show (6:ℚ)/5 * (35/100 + 30/100 + 15/100 + 10/100 + 10/100) = 6/5
    from by norm_num]
  rw [scoreOne_score]
  have hS0 : 0 ≤ 35/100 * c.cf_score.getD 0 + 30/100 * c.content_score.getD 0
      + 15/100 * compute_recency_score now
          ((resolveDoc db c).bind (fun f => f.createdAt))
      + 10/100 * hybridPopularity db c
      + 10/100 * hybridFriendBoost db user_id c.item_id := by
    nlinarith [hR.1]
  have hS1 : 35/100 * c.cf_score.getD 0 + 30/100 * c.content_score.getD 0
      + 15/100 * compute_recency_score now
          ((resolveDoc db c).bind (fun f => f.createdAt))
      + 10/100 * hybridPopularity db c
      + 10/100 * hybridFriendBoost db user_id c.item_id ≤ 1 := by
    nlinarith [hR.2]
  rcases hybridWatchBoost_cases db user_id c.item_id with hw | hw <;>
    rw [hw] <;> constructor
  · exact round6_nonneg (by nlinarith)
  · exact round6_le_of_le (by nlinarith)
  · exact round6_nonneg (by nlinarith)
  · exact round6_le_of_le (by nlinarith)

/-- C2, witness: the formula and bound evaluated on a concrete candidate
carrying only a cf score of 1 (score 0.38 = round6(0.35·1 + 0.15·0.2)). -/
theorem claim_C2_witness :
    c2scored.score = round6 ((35/100
        * (({ item_id := "Y", cf_score := some 1 } : Candidate).cf_score.getD 0)
      + 30/100 * (({ item_id := "Y", cf_score := some 1 } :
          Candidate).content_score.getD 0)
      + 15/100 * compute_recency_score 0
          ((resolveDoc {} { item_id := "Y", cf_score := some 1 }).bind
            (fun f => f.createdAt))
      + 10/100 * hybridPopularity {} { item_id := "Y", cf_score := some 1 }
      + 10/100 * hybridFriendBoost {} "u" "Y")
      * hybridWatchBoost {} "u" "Y") ∧
    0 ≤ c2scored.score ∧
    c2scored.score ≤ 6/5 * (35/100 + 30/100 + 15/100 + 10/100 + 10/100) := by
  have hhyb : compute_hybrid {} 0 "u" c2cands = [c2scored] := by
    simp [compute_hybrid, c2cands, scoreOne, c2scored, resolveDoc,
      hybridPopularity, hybridFriendBoost, hybridWatchBoost,
      compute_recency_score, candidate_social_boost, alistGet, isValidOid,
      round6]
    norm_num [round_eq]
  have hhs : c2scored ∈ compute_hybrid {} 0 "u" c2cands := by
    rw [hhyb]; exact List.mem_cons_self _ _
  have h := claim_C2 {} 0 "u" c2cands c2scored hhs
  have hb : ∀ c ∈ c2cands,
      (0 ≤ c.cf_score.getD 0 ∧ c.cf_score.getD 0 ≤ 1) ∧
      (0 ≤ c.content_score.getD 0 ∧ c.content_score.getD 0 ≤ 1) ∧
      (0 ≤ hybridPopularity {} c ∧ hybridPopularity {} c ≤ 1) ∧
      (0 ≤ hybridFriendBoost {} "u" c.item_id ∧
        hybridFriendBoost {} "u" c.item_id ≤ 1) := by
    intro c hc
    rcases List.mem_singleton.mp hc with rfl
    refine ⟨by norm_num, by norm_num, ?_, ?_⟩
    · have : hybridPopularity {} { item_id := "Y", cf_score := some 1 } = 0 := by
        simp [hybridPopularity, resolveDoc, isValidOid]
      rw [this]; norm_num
    · have : hybridFriendBoost {} "u" "Y" = 0 := by
        simp [hybridFriendBoost, candidate_social_boost, isValidOid, alistGet]
      rw [this]; norm_num
  rcases h.1 with ⟨c, hcm, _, hscore⟩
  rcases List.mem_singleton.mp hcm with rfl
  exact ⟨hscore, (h.2 hb).1, (h.2 hb).2⟩

/-! ## Claim C4: the personalization mixer -/

/-- Zeta-expanded form of the mixer. -/
theorem mixRecs_eq (sh : List Scored → List Scored) (categorized : List Scored)
    (ratio : ℚ) :
    mixRecs sh categorized ratio =
      (let pers := categorized.filter (fun r => !r.is_popular)
       let pop := categorized.filter (fun r => r.is_popular)
       let tn := min categorized.length PRELOAD_BUFFER
       let np := (pyInt ((tn : ℚ) * ratio)).toNat
       let mixed := pers.take np ++ pop.take (tn - np)
       if (sh mixed).length < tn then
         sh mixed ++ (categorized.filter
            (fun r => decide (r ∉ sh mixed))).take (tn - (sh mixed).length)
       else sh mixed) := rfl

/-- Every mixed record comes from the scored input list. -/
theorem mixRecs_subset (sh : List Scored → List Scored)
    (hsh : ∀ l, (sh l).Perm l) (categorized : List Scored) (ratio : ℚ) :
    ∀ r ∈ mixRecs sh categorized ratio, r ∈ categorized := by
  have hmsub : ∀ (n m : ℕ) (a : Scored),
      a ∈ (categorized.filter (fun r => !r.is_popular)).take n
        ++ (categorized.filter (fun r => r.is_popular)).take m →
      a ∈ categorized := by
    intro n m a ha
    rcases List.mem_append.mp ha with h | h
    · exact List.mem_of_mem_filter ((List.take_sublist _ _).subset h)
    · exact List.mem_of_mem_filter ((List.take_sublist _ _).subset h)
  intro r hr
  rw [mixRecs_eq] at hr
  simp only [] at hr
  split at hr
  · rcases List.mem_append.mp hr with h | h
    · exact hmsub _ _ r ((hsh _).mem_iff.mp h)
    · exact List.mem_of_mem_filter ((List.take_sublist _ _).subset h)
  · exact hmsub _ _ r ((hsh _).mem_iff.mp hr)

/-- The mixer preserves distinctness of item ids. -/
theorem mixRecs_ids_nodup (sh : List Scored → List Scored)
    (hsh : ∀ l, (sh l).Perm l) (categorized : List Scored) (ratio : ℚ)
    (hnd : (categorized.map (fun r => r.item_id)).Nodup) :
    ((mixRecs sh categorized ratio).map (fun r => r.item_id)).Nodup := by
  have hinj := List.inj_on_of_nodup_map hnd
  -- distinct ids in any (take of personalized ++ take of popular) block
  have hmixed_nodup : ∀ (n m : ℕ),
      ((((categorized.filter (fun r => !r.is_popular)).take n
        ++ (categorized.filter (fun r => r.is_popular)).take m)).map
          (fun r => r.item_id)).Nodup := by
    intro n m
    rw [List.map_append]
    refine List.Nodup.append ?_ ?_ ?_
    · exact List.Nodup.sublist
        (List.Sublist.map _ ((List.take_sublist _ _).trans
          (List.filter_sublist _))) hnd
    · exact List.Nodup.sublist
        (List.Sublist.map _ ((List.take_sublist _ _).trans
          (List.filter_sublist _))) hnd
    · intro x hx1 hx2
      rcases List.mem_map.mp hx1 with ⟨a, ha, rfl⟩
      rcases List.mem_map.mp hx2 with ⟨b, hb, hba⟩
      have ha' := List.mem_filter.mp ((List.take_sublist _ _).subset ha)
      have hb' := List.mem_filter.mp ((List.take_sublist _ _).subset hb)
      have hab : b = a := hinj hb'.1 ha'.1 hba
      have h1 : a.is_popular = false := by simpa using ha'.2
      rw [hab, h1] at hb'
      exact absurd hb'.2 (by simp)
  have hmsub : ∀ (n m : ℕ) (a : Scored),
      a ∈ (categorized.filter (fun r => !r.is_popular)).take n
        ++ (categorized.filter (fun r => r.is_popular)).take m →
      a ∈ categorized := by
    intro n m a ha
    rcases List.mem_append.mp ha with h | h
    · exact List.mem_of_mem_filter ((List.take_sublist _ _).subset h)
    · exact List.mem_of_mem_filter ((List.take_sublist _ _).subset h)
  rw [mixRecs_eq]
  simp only []
  split
  · rw [List.map_append]
    refine List.Nodup.append ?_ ?_ ?_
    · exact (((hsh _).map (fun r => r.item_id)).nodup_iff).mpr
        (hmixed_nodup _ _)
    · exact List.Nodup.sublist
        (List.Sublist.map _ ((List.take_sublist _ _).trans
          (List.filter_sublist _))) hnd
    · intro x hx1 hx2
      rcases List.mem_map.mp hx1 with ⟨a, ha, rfl⟩
      rcases List.mem_map.mp hx2 with ⟨b, hb, hba⟩
      have ha2 : a ∈ categorized := hmsub _ _ a ((hsh _).mem_iff.mp ha)
      have hb1 := (List.take_sublist _ _).subset hb
      have hb2 := List.mem_filter.mp hb1
      have hbnot : b ∉ sh _ := of_decide_eq_true hb2.2
      have hab : b = a := hinj hb2.1 ha2 hba
      rw [hab] at hbnot
      exact hbnot ha
  · exact (((hsh _).map (fun r => r.item_id)).nodup_iff).mpr
      (hmixed_nodup _ _)

/-- C4: with `total_needed = min(|S|, 100)`,
`num_personalized = floor(total_needed x r)` and
`num_popular = total_needed - num_personalized`, the mixer output has exactly
`total_needed` records; as a multiset it is the first `num_personalized`
personalized records and first `num_popular` popular records (in score order)
plus a backfill, and the backfill is literally the prefix of the
not-yet-included records in their original relative order. -/
theorem claim_C4 (sh : List Scored → List Scored)
    (hsh : ∀ l, (sh l).Perm l) (categorized : List Scored)
    (hnd : (categorized.map (fun r => r.item_id)).Nodup)
    (ratio : ℚ) (h0 : 0 ≤ ratio) (h1 : ratio ≤ 1)
    (tn np npop : Nat) (mixed : List Scored)
    (htn : tn = min categorized.length PRELOAD_BUFFER)
    (hnp : np = (pyInt ((tn : ℚ) * ratio)).toNat)
    (hnpop : npop = tn - np)
    (hmixed : mixed = (categorized.filter (fun r => !r.is_popular)).take np
        ++ (categorized.filter (fun r => r.is_popular)).take npop) :
    (mixRecs sh categorized ratio).length = tn ∧
    (mixRecs sh categorized ratio).Perm
      (mixed ++ (categorized.filter (fun r => decide (r ∉ mixed))).take
        (tn - mixed.length)) ∧
    (mixRecs sh categorized ratio).drop mixed.length =
      (categorized.filter (fun r => decide (r ∉ mixed))).take
        (tn - mixed.length) := by
  have hcatN : categorized.Nodup := List.Nodup.of_map _ hnd
  -- np ≤ tn
  have hnptn : np ≤ tn := by
    have hq : (0:ℚ) ≤ (tn : ℚ) * ratio := mul_nonneg (by positivity) h0
    have hpy : pyInt ((tn : ℚ) * ratio) = ⌊(tn : ℚ) * ratio⌋ := by
      unfold pyInt
      rw [if_pos hq]
    rw [hnp, hpy, Int.toNat_le]
    calc ⌊(tn : ℚ) * ratio⌋ ≤ ⌊(tn : ℚ)⌋ :=
          Int.floor_le_floor (by nlinarith)
      _ = (tn : ℤ) := Int.floor_natCast tn
  have hperm := hsh mixed
  have hlensh : (sh mixed).length = mixed.length := hperm.length_eq
  have hmlen : mixed.length ≤ tn := by
    rw [hmixed, List.length_append, List.length_take, List.length_take]
    have := Nat.min_le_left np
      (categorized.filter (fun r => !r.is_popular)).length
    have := Nat.min_le_left npop
      (categorized.filter (fun r => r.is_popular)).length
    omega
  have htncat : tn ≤ categorized.length := by
    rw [htn]; exact Nat.min_le_left _ _
  -- the backfill pool is large enough
  have hpool : categorized.length - mixed.length ≤
      (categorized.filter (fun r => decide (r ∉ mixed))).length := by
    have hpart := List.length_eq_length_filter_add
      (l := categorized) (fun r => decide (r ∈ mixed))
    have hco : categorized.filter (fun x => !decide (x ∈ mixed))
        = categorized.filter (fun x => decide (x ∉ mixed)) := by
      refine List.filter_congr ?_
      intro x _
      simp [decide_not]
    rw [hco] at hpart
    have hsubl : (categorized.filter (fun r => decide (r ∈ mixed))).length
        ≤ mixed.length := by
      refine List.Subperm.length_le ?_
      refine List.subperm_of_subset (List.Nodup.filter _ hcatN) ?_
      intro a ha
      exact of_decide_eq_true (List.mem_filter.mp ha).2
    omega
  -- the filter over the shuffled block equals the filter over mixed
  have hfilter : categorized.filter (fun r => decide (r ∉ sh mixed))
      = categorized.filter (fun r => decide (r ∉ mixed)) := by
    refine List.filter_congr ?_
    intro x _
    rw [decide_eq_decide]
    exact not_congr hperm.mem_iff
  have heq : mixRecs sh categorized ratio =
      (if (sh mixed).length < tn then
        sh mixed ++ (categorized.filter
          (fun r => decide (r ∉ sh mixed))).take (tn - (sh mixed).length)
      else sh mixed) := by
    rw [mixRecs_eq]
    simp only []
    rw [← htn, ← hnp, ← hnpop, ← hmixed]
  rw [heq]
  by_cases hlt : (sh mixed).length < tn
  · rw [if_pos hlt, hfilter, hlensh]
    refine ⟨?_, ?_, ?_⟩
    · rw [List.length_append, List.length_take]
      have : tn - mixed.length ≤
          (categorized.filter (fun r => decide (r ∉ mixed))).length := by
        omega
      omega
    · exact hperm.append_right _
    · rw [← hlensh]
      exact List.drop_left _ _
  · rw [if_neg hlt]
    have hlen2 : (sh mixed).length = tn := by omega
    have hzero : tn - mixed.length = 0 := by omega
    refine ⟨hlen2, ?_, ?_⟩
    · rw [hzero, List.take_zero, List.append_nil]
      exact hperm
    · rw [hzero, List.take_zero]
      have : (sh mixed).length ≤ mixed.length := by omega
      exact List.drop_eq_nil_of_le this

/-- C4, witness: the claim's instance — 100 scored records, 60 popular and
40 personalized, ratio 0.7: all 40 personalized records are taken
(`num_personalized = 70` capped by availability), backfilled with popular
records to exactly 100. -/
theorem claim_C4_witness :
    (mixRecs id c4cat (7/10)).length = 100 ∧
    (mixRecs id c4cat (7/10)).Perm
      (c4mixed ++ (c4cat.filter (fun r => decide (r ∉ c4mixed))).take
        (100 - c4mixed.length)) ∧
    (mixRecs id c4cat (7/10)).drop c4mixed.length =
      (c4cat.filter (fun r => decide (r ∉ c4mixed))).take
        (100 - c4mixed.length) :=
  claim_C4 id (fun l => List.Perm.refl l) c4cat (by decide) (7/10)
    (by norm_num) (by norm_num) 100 70 30 c4mixed (by decide)
    (by rw [pyInt, if_pos (by norm_num)]; norm_num; decide) (by decide) (by decide)

/-- C5, witness: the amended rule at the claim's concrete instances —
length 25 with page=2 is a hit [10:20) with more pages, page=3 forces
regeneration, and length 8 with page=1, limit=10 forces regeneration. -/
theorem claim_C5_witness :
    readDecision (some c5list) 2 10 =
      ReadResult.hit ((c5list.drop 10).take 10) 25 true ∧
    readDecision (some c5list) 3 10 = ReadResult.regen ∧
    readDecision (some c8list) 1 10 = ReadResult.regen := by
  refine ⟨?_, ?_, ?_⟩
  · have := (claim_C5_amended c5list 2 10).2 (by decide)
    simpa using this
  · exact (claim_C5_amended c5list 3 10).1 (by decide)
  · exact (claim_C5_amended c8list 1 10).1 (by decide)

/-! ## Claim C9: uniqueness of item ids through the whole pipeline -/

/-- Scoring and sorting permute the candidate ids. -/
theorem compute_hybrid_ids_perm (db : DB) (now : ℚ) (uid : String)
    (cs : List Candidate) :
    ((compute_hybrid db now uid cs).map (fun s => s.item_id)).Perm
      (cs.map (fun c => c.item_id)) := by
  unfold compute_hybrid
  have hp := (List.mergeSort_perm (cs.map (scoreOne db now uid))
    (fun a b => decide (b.score ≤ a.score))).map (fun s => s.item_id)
  refine hp.trans ?_
  rw [List.map_map]
  rw [show ((fun (s : Scored) => s.item_id) ∘ scoreOne db now uid)
      = (fun (c : Candidate) => c.item_id) from funext (fun c => rfl)]

/-- The scored list out of candidate generation has distinct item ids. -/
theorem generate_fst_ids_nodup (db : DB) (env : Env) (uid : String)
    (exc : List String) :
    (((generate_recommendations_for_user db env uid exc).1).map
      (fun r => r.item_id)).Nodup :=
  ((compute_hybrid_ids_perm db env.now uid _).nodup_iff).mpr
    (merge_ids_nodup _)

/-- An id-preserving `filterMap` yields a sub-id-list. -/
theorem filterMap_ids_sublist (f : Scored → Option FullRec)
    (hf : ∀ a b, f a = some b → b.item_id = a.item_id) (l : List Scored) :
    ((l.filterMap f).map (fun r => r.item_id)).Sublist
      (l.map (fun r => r.item_id)) := by
  induction l with
  | nil => simp
  | cons a l ih =>
    rw [List.filterMap_cons]
    cases hfa : f a with
    | none =>
      rw [List.map_cons]
      exact ih.cons _
    | some b =>
      rw [List.map_cons, List.map_cons, hf a b hfa]
      exact ih.cons₂ _

/-- The final annotation pass keeps the record's id. -/
theorem annotateRec_item_id (liked : List String)
    (feeds_map : List (String × Feed)) (fmap : List (String × List String))
    (a : Scored) (b : FullRec)
    (h : annotateRec liked feeds_map fmap a = some b) :
    b.item_id = a.item_id := by
  unfold annotateRec at h
  split at h
  · exact Option.noConfusion h
  · injection h with h
    rw [← h]

/-- C9: in every regenerated recommendation list, each `item_id` appears at
most once — merge-time uniqueness is preserved through scoring, bucket
splitting, the shuffle, the backfill and the final already-liked filter. -/
theorem claim_C9 (db : DB) (env : Env) (user_id : String) (ratio : ℚ)
    (hsh : ∀ l, (env.shuffle l).Perm l) :
    ((regenerate db env user_id ratio).map (fun r => r.item_id)).Nodup := by
  have hgen := generate_fst_ids_nodup db env user_id
    (get_user_seen_items db user_id ++ get_user_created_items db user_id)
  have hcat : ((((generate_recommendations_for_user db env user_id
      (get_user_seen_items db user_id ++ get_user_created_items db user_id)).1).map
        (fun r => { r with is_popular := decide (r.popularity > 1/2) })).map
          (fun r => r.item_id)).Nodup := by
    rw [List.map_map]
    rw [show ((fun (r : Scored) => r.item_id)
        ∘ (fun (r : Scored) => { r with is_popular := decide (r.popularity > 1/2) }))
        = (fun (r : Scored) => r.item_id) from funext (fun r => rfl)]
    exact hgen
  have hmix := mixRecs_ids_nodup env.shuffle hsh _ ratio hcat
  have hsub := filterMap_ids_sublist
    (annotateRec (user_liked_items db user_id)
      (generate_recommendations_for_user db env user_id
        (get_user_seen_items db user_id ++ get_user_created_items db user_id)).2
      (friend_map db user_id))
    (fun a b h => annotateRec_item_id _ _ _ _ _ h)
    (mixRecs env.shuffle
      (((generate_recommendations_for_user db env user_id
        (get_user_seen_items db user_id
          ++ get_user_created_items db user_id)).1).map
        (fun r => { r with is_popular := decide (r.popularity > 1/2) }))
      ratio)
  exact List.Nodup.sublist hsub hmix

/-- C9, witness: uniqueness on the concrete `exDb` regeneration. -/
theorem claim_C9_witness :
    ((regenerate exDb exEnv exUser (7/10)).map (fun r => r.item_id)).Nodup :=
  claim_C9 exDb exEnv exUser (7/10) (fun l => List.Perm.refl l)

/-! ## Claim C1: the exclusion set and the source adapters -/

/-- Gorse candidates never carry an excluded id. -/
theorem candidate_gorse_not_excluded (gorse_items : List GorseItem)
    (feeds_map : List (String × Feed)) (excluded_items : List String) :
    ∀ c ∈ candidate_gorse gorse_items feeds_map excluded_items,
      c.item_id ∉ excluded_items := by
  intro c hc
  rcases List.mem_filterMap.mp hc with ⟨it, _, hfit⟩
  cases hii : it.item_id with
  | none => rw [hii] at hfit; exact Option.noConfusion hfit
  | some iid =>
    rw [hii] at hfit
    dsimp only at hfit
    split at hfit
    · exact Option.noConfusion hfit
    · next hdec =>
      split at hfit
      · exact Option.noConfusion hfit
      · injection hfit with hfit
        rw [← hfit]
        exact fun hmem => hdec (decide_eq_true hmem)

/-- Related-item candidates never carry an excluded id. -/
theorem candidate_related_not_excluded (db : DB) (user_id : String)
    (excluded_items : List String) :
    ∀ c ∈ candidate_related db user_id excluded_items,
      c.item_id ∉ excluded_items := by
  intro c hc
  rcases List.mem_filterMap.mp hc with ⟨rrec, _, hfit⟩
  split at hfit
  · exact Option.noConfusion hfit
  · next hdec =>
    injection hfit with hfit
    rw [← hfit]
    exact fun hmem => hdec (decide_eq_true hmem)

/-- Social candidates never carry an excluded id. -/
theorem candidate_social_filtered_not_excluded (db : DB) (user_id : String)
    (excluded_items : List String) :
    ∀ c ∈ candidate_social_filtered db user_id excluded_items,
      c.item_id ∉ excluded_items := by
  intro c hc
  rcases List.mem_filterMap.mp hc with ⟨p, _, hfit⟩
  split at hfit
  · exact Option.noConfusion hfit
  · next hdec =>
    injection hfit with hfit
    rw [← hfit]
    exact fun hmem => hdec (decide_eq_true hmem)

/-- Evaluation of the regeneration pipeline on `exDb`: the excluded item
`"X"` (commented on by the user) reaches the output via the trending
adapter. -/
theorem regen_ex_eval : regenerate exDb exEnv exUser (7/10) = [exFull] := by
  have h1 : generate_recommendations_for_user exDb exEnv exUser ["X"] =
      ([scoreOne exDb 100 exUser exCand], []) := by
    simp [generate_recommendations_for_user, exDb, exEnv,
      candidate_followed_users, candidate_interest, candidate_trending,
      candidate_social_boost, candidate_social_filtered, candidate_related,
      candidate_gorse, gorseFeedsMap, get_gorse_recommendations,
      merge_candidates, insertCand, compute_hybrid, exCand, exUser]
  have h2 : scoreOne exDb 100 exUser exCand = exScored := by
    simp [scoreOne, exCand, exDb, exUser, exScored, resolveDoc,
      hybridPopularity, hybridFriendBoost, hybridWatchBoost,
      compute_recency_score, candidate_social_boost, alistGet, round6,
      isValidOid]
    norm_num [round_eq]
  simp only [regenerate]
  rw [show get_user_seen_items exDb exUser ++ get_user_created_items exDb exUser
      = ["X"] from by decide]
  rw [h1, h2]
  simp [user_liked_items, exDb, exUser, exEnv, friend_map, alistGet, mixRecs,
    pyInt, PRELOAD_BUFFER, exScored, exFull]
  norm_num
  simp [List.filterMap_cons, annotateRec, exScored, exFull, alistGet]

/-- C1, counterexample: on `exDb` the item `"X"` is in the user's exclusion
set (the user commented on it) yet appears in the final regenerated
recommendation list, because the trending adapter is never filtered against
the exclusion set. -/
theorem claim_C1_counterexample :
    "X" ∈ get_user_seen_items exDb exUser
        ++ get_user_created_items exDb exUser ∧
    "X" ∈ (regenerate exDb exEnv exUser (7/10)).map (fun r => r.item_id) := by
  constructor
  · decide
  · rw [regen_ex_eval]; decide

/-- C1 (amended): the exclusion set filters only the external-recommender,
related-items and social-boost candidates; followed-users, interest-match
and trending candidates are not checked against it, so any excluded item in
the final output necessarily entered through one of those three adapters. -/
theorem claim_C1_amended (db : DB) (env : Env) (user_id : String) (ratio : ℚ)
    (hsh : ∀ l, (env.shuffle l).Perm l) (r : FullRec)
    (hr : r ∈ regenerate db env user_id ratio)
    (hx : r.item_id ∈ get_user_seen_items db user_id
        ++ get_user_created_items db user_id) :
    r.item_id ∈ (candidate_followed_users db user_id 50
      ++ candidate_interest db user_id 30
      ++ candidate_trending db 20).map (fun c => c.item_id) := by
  have hr' : r ∈ (mixRecs env.shuffle
      (((generate_recommendations_for_user db env user_id
        (get_user_seen_items db user_id
          ++ get_user_created_items db user_id)).1).map
        (fun s => { s with is_popular := decide (s.popularity > 1/2) }))
      ratio).filterMap (annotateRec (user_liked_items db user_id)
        (generate_recommendations_for_user db env user_id
          (get_user_seen_items db user_id
            ++ get_user_created_items db user_id)).2
        (friend_map db user_id)) := hr
  rcases List.mem_filterMap.mp hr' with ⟨a, ha, hfa⟩
  have hid : r.item_id = a.item_id := annotateRec_item_id _ _ _ _ _ hfa
  have hacat := mixRecs_subset env.shuffle hsh _ ratio a ha
  rcases List.mem_map.mp hacat with ⟨s, hs, hupd⟩
  have haid : a.item_id = s.item_id := by rw [← hupd]
  have h5 : s.item_id ∈ ((generate_recommendations_for_user db env user_id
      (get_user_seen_items db user_id
        ++ get_user_created_items db user_id)).1).map (fun s => s.item_id) :=
    List.mem_map_of_mem _ hs
  have h6 : s.item_id ∈ (compute_hybrid db env.now user_id (merge_candidates
      [candidate_followed_users db user_id 50
        ++ candidate_interest db user_id 30
        ++ candidate_gorse (get_gorse_recommendations env)
            (gorseFeedsMap db (get_gorse_recommendations env)
              (get_user_seen_items db user_id
                ++ get_user_created_items db user_id))
            (get_user_seen_items db user_id
              ++ get_user_created_items db user_id)
        ++ candidate_trending db 20
        ++ candidate_related db user_id (get_user_seen_items db user_id
            ++ get_user_created_items db user_id)
        ++ candidate_social_filtered db user_id
            (get_user_seen_items db user_id
              ++ get_user_created_items db user_id)])).map
        (fun s => s.item_id) := h5
  have h7 := (compute_hybrid_ids_perm db env.now user_id _).mem_iff.mp h6
  have h8 := (merge_ids_mem_iff _ s.item_id).mp h7
  rw [hid, haid]
  simp only [List.flatten, List.append_nil, List.map_append,
    List.mem_append] at h8 ⊢
  rw [hid, haid] at hx
  rcases h8 with ((((h | h) | h) | h) | h) | h
  · exact Or.inl (Or.inl h)
  · exact Or.inl (Or.inr h)
  · rcases List.mem_map.mp h with ⟨c, hc, hcid⟩
    exact absurd (hcid ▸ hx)
      (by simpa using candidate_gorse_not_excluded _ _ _ c hc)
  · exact Or.inr h
  · rcases List.mem_map.mp h with ⟨c, hc, hcid⟩
    exact absurd (hcid ▸ hx)
      (by simpa using candidate_related_not_excluded _ _ _ c hc)
  · rcases List.mem_map.mp h with ⟨c, hc, hcid⟩
    exact absurd (hcid ▸ hx)
      (by simpa using candidate_social_filtered_not_excluded _ _ _ c hc)

/-- C1, witness: the amended theorem at the concrete `exDb` instance — the
excluded served item `"X"` is indeed a trending-adapter candidate. -/
theorem claim_C1_witness :
    "X" ∈ (candidate_followed_users exDb exUser 50
      ++ candidate_interest exDb exUser 30
      ++ candidate_trending exDb 20).map (fun c => c.item_id) :=
  claim_C1_amended exDb exEnv exUser (7/10) (fun l => List.Perm.refl l) exFull
    (by rw [regen_ex_eval]; exact List.mem_cons_self _ _)
    (by decide)

/-! ## Claims C8 and C10: cache degradation and the read-only hit path -/

/-- With Redis unavailable the cache-consultation block always falls
through. -/
theorem recommendHitResponse_degraded (store : CacheStore) (user_id : String)
    (session_id : Option String) (refresh : Bool) (page limit : Nat) :
    recommendHitResponse false store user_id session_id refresh page limit
      = none := by
  unfold recommendHitResponse
  cases hcond : (pyTruthyStr session_id && !refresh) <;> rfl

/-- C10: serving a page as a cache hit performs no cache write — when the
response reports `cache = "hit"`, the store (every entry's value and the
TTL it was written with) is returned unchanged; only the regeneration path
writes. -/
theorem claim_C10 (db : DB) (env : Env) (avail : Bool) (store : CacheStore)
    (user_id : String) (req : Req)
    (h : (recommendStep db env avail store user_id req).1.cache = "hit") :
    (recommendStep db env avail store user_id req).2 = store := by
  have key : ∀ (o : Option Response) (M : Response × CacheStore),
      M.1.cache = "miss" →
      (match o with
        | some resp => (resp, store)
        | none => M).1.cache = "hit" →
      (match o with
        | some resp => (resp, store)
        | none => M).2 = store := by
    intro o M hM hh
    cases o with
    | some resp => rfl
    | none => rw [hM] at hh; exact absurd hh (by decide)
  exact key _ _ rfl h

/-- C8: with the cache store unreachable, every read reports the entry
absent, every write is a no-op on the store yet still returns a session
token, and two identical requests each report `cache = "miss"` and produce
identical pipeline output independently, leaving the store untouched. -/
theorem claim_C8 (db : DB) (env : Env) (store : CacheStore) (user_id : String)
    (req : Req) (recommendations : List FullRec) (session_id : Option String)
    (fresh : String) :
    get_cached_recommendations false store user_id session_id = none ∧
    (cache_recommendations false store user_id recommendations session_id
      fresh).2 = store ∧
    ((cache_recommendations false store user_id recommendations session_id
      fresh).1).isSome = true ∧
    (recommendStep db env false store user_id req).1.cache = "miss" ∧
    (recommendStep db env false store user_id req).2 = store ∧
    (recommendStep db env false
        ((recommendStep db env false store user_id req).2) user_id req).1
      = (recommendStep db env false store user_id req).1 := by
  have h4 : (recommendStep db env false store user_id req).1.cache = "miss" := by
    simp only [recommendStep, recommendHitResponse_degraded]
  have h5 : (recommendStep db env false store user_id req).2 = store := by
    simp only [recommendStep, recommendHitResponse_degraded]
    rfl
  refine ⟨rfl, rfl, rfl, h4, h5, ?_⟩
  rw [h5]

/-- C10, witness: a request served from a full (length-100) cached session
list is a hit, and the store is returned unchanged. -/
theorem claim_C10_witness :
    (recommendStep {} { now := 0 } true c10store "u"
      { session_id := some "s" }).1.cache = "hit" ∧
    (recommendStep {} { now := 0 } true c10store "u"
      { session_id := some "s" }).2 = c10store :=
  ⟨by decide,
   claim_C10 {} { now := 0 } true c10store "u" { session_id := some "s" }
     (by decide)⟩

end App


